import Mathlib

/-!
Verification of the EcoWatch reading-normalization and alert-decision pipeline.

This file gives a shallow embedding, in Lean 4, of the core Python code of the
repository (`ml_models/predictor.py`, `services/ml_service.py`, the token /
notification / normalization logic of `services/firebase.py`) and proves, or
refutes, the properties claimed of it.

Modelling conventions:
  * Python runtime values that flow through the pipeline are modelled by the
    inductive type `PyVal` (None, bool, int, float, str, datetime, list, dict).
    Python floats are modelled as rationals: every float literal appearing in
    the source is an exactly-representable short decimal, and no claim in
    scope depends on IEEE-754 rounding of arithmetic.
  * Python dicts are modelled as association lists `List (String × PyVal)`
    without duplicate keys; an absent key is an absent entry.
  * Functions that can raise are embedded with result type `Except String α`
    (the `String` is the exception message); functions that the source wraps
    in a catch-all `try/except` are total.
  * External effects (the realtime database, the Firestore `devices`
    collection, the FCM multicast provider, a prediction push) are passed in
    as explicit arguments describing the outcome of each external call.
  * `datetime` values are microseconds since 0001-01-01T00:00:00 together
    with an optional UTC offset in seconds (`none` = timezone-naive).
    `datetime.fromtimestamp` is modelled for a UTC local timezone.
-/

namespace EcoWatch

/-- A Python `datetime`: microseconds since 0001-01-01T00:00:00 plus an
optional UTC offset in seconds (`none` means timezone-naive). -/
structure PyDatetime where
  usec : Int
  off : Option Int
  deriving DecidableEq, Repr

/-- A Python float value, kept as an exact fraction `num / den` with
`den > 0` (every float literal in the source is a short decimal, and no
claim in scope depends on IEEE-754 rounding). Fractions are not reduced;
value equality and order are by cross-multiplication. -/
structure PyFloat where
  num : Int
  den : Int
  deriving DecidableEq, Repr

/-- Embed an integer as a float value. -/
def pfOfInt (n : Int) : PyFloat := ⟨n, 1⟩

/-- Value equality of fractions (`den` positive). -/
def pfEq (a b : PyFloat) : Bool :=
  a.num * b.den = b.num * a.den

/-- Value order of fractions (`den` positive). -/
def pfLt (a b : PyFloat) : Bool :=
  a.num * b.den < b.num * a.den

/-- Rounding to the nearest integer, halves up: `⌊(2n + d) / (2d)⌋`. -/
def pfRound (x : PyFloat) : Int :=
  (2 * x.num + x.den).ediv (2 * x.den)

/-- Python runtime values as they occur in the pipeline. -/
inductive PyVal where
  | pnone
  | pbool (b : Bool)
  | pint (n : Int)
  | pfloat (q : PyFloat)
  | pstr (s : String)
  | pdt (d : PyDatetime)
  | plist (l : List PyVal)
  | pdict (d : List (String × PyVal))
  deriving Repr

/-- A Python dict, modelled as an association list without duplicate keys. -/
abbrev PyDict := List (String × PyVal)

/-- Python truthiness (`bool(v)`). -/
def pyTruthy : PyVal → Bool
  | .pnone => false
  | .pbool b => b
  | .pint n => n != 0
  | .pfloat q => q.num != 0
  | .pstr s => s != ""
  | .pdt _ => true
  | .plist l => !l.isEmpty
  | .pdict d => !d.isEmpty

/-- First value bound to key `k` in an association list (Python dict lookup). -/
def assocFind (k : String) : PyDict → Option PyVal
  | [] => none
  | (k', v) :: rest => if k' = k then some v else assocFind k rest

/-- Python `d.get(k, default)`. -/
def dictGetD (d : PyDict) (k : String) (dflt : PyVal) : PyVal :=
  (assocFind k d).getD dflt

/-- Python `d[k]`, raising `KeyError` when the key is absent. -/
def dictGetE (d : PyDict) (k : String) : Except String PyVal :=
  match assocFind k d with
  | some v => .ok v
  | none => .error ("KeyError: " ++ k)

/-- Python `k in d` for a dict. -/
def dictHasKey (d : PyDict) (k : String) : Bool :=
  (assocFind k d).isSome

/-- Is the value a Python dict? (`isinstance(v, dict)`). -/
def isDict : PyVal → Bool
  | .pdict _ => true
  | _ => false

/-- Is the value a Python str? (`isinstance(v, str)`). -/
def isStr : PyVal → Bool
  | .pstr _ => true
  | _ => false

/-- Extract a string value, if the value is one. -/
def asStr : PyVal → Option String
  | .pstr s => some s
  | _ => none

/-- Coerce a numeric Python value (bool counts as int) to a fraction. -/
def numVal : PyVal → Option PyFloat
  | .pbool b => some (pfOfInt (if b then 1 else 0))
  | .pint n => some (pfOfInt n)
  | .pfloat q => some q
  | _ => none

/-- Values that are not containers; tokens flowing through the stores are
always of this kind, and on them Python `==` is an equivalence. -/
def pyScalar : PyVal → Bool
  | .plist _ => false
  | .pdict _ => false
  | _ => true

/-- Values accepted by Python `hash` (lists and dicts are unhashable). -/
def pyHashable : PyVal → Bool
  | .plist _ => false
  | .pdict _ => false
  | _ => true

mutual
/-- Python `==` between runtime values: numeric kinds compare by value
(`True == 1`, `1 == 1.0`), strings by content, datetimes compare equal only
within the same awareness (an aware and a naive datetime are `==`-unequal),
lists pointwise and dicts key-wise (assuming no duplicate keys). -/
def pyEq : PyVal → PyVal → Bool
  | .pnone, .pnone => true
  | .pstr a, .pstr b => a = b
  | .pdt a, .pdt b =>
      match a.off, b.off with
      | none, none => a.usec = b.usec
      | some x, some y => a.usec - x * 1000000 = b.usec - y * 1000000
      | _, _ => false
  | .plist a, .plist b => pyEqList a b
  | .pdict a, .pdict b => a.length = b.length && pyEqDictIn a b
  | a, b =>
      match numVal a, numVal b with
      | some x, some y => pfEq x y
      | _, _ => false

/-- Pointwise Python `==` on lists. -/
def pyEqList : List PyVal → List PyVal → Bool
  | [], [] => true
  | a :: as', b :: bs => pyEq a b && pyEqList as' bs
  | _, _ => false

/-- Each binding of the first dict has a `==`-equal binding in the second. -/
def pyEqDictIn : PyDict → PyDict → Bool
  | [], _ => true
  | (k, v) :: rest, b =>
      (match assocFind k b with
       | some w => pyEq v w
       | none => false) && pyEqDictIn rest b
end

/-- Membership up to Python `==` (`x in l` for a list). -/
def pyMem (x : PyVal) (l : List PyVal) : Bool :=
  l.any (fun u => pyEq x u)

/-! ### Numeric strings

`float(s)` for a string argument, modelled for the grammar
`[sign] (digits [. digits] | . digits) [(e|E) [sign] digits]` (no surrounding
whitespace, no underscores, no `inf`/`nan`; none of those occur in scope). -/

/-- Value of a list of decimal digit characters. -/
def digitsVal (cs : List Char) : Nat :=
  cs.foldl (fun acc c => acc * 10 + (c.toNat - '0'.toNat)) 0

/-- Parse an optional sign, returning the factor and the rest. -/
def parseSign : List Char → Int × List Char
  | '+' :: rest => (1, rest)
  | '-' :: rest => (-1, rest)
  | cs => (1, cs)

/-- Parse the exponent suffix `(e|E) [sign] digits`; `none` on syntax error. -/
def parseExpPart : List Char → Option Int
  | [] => some 0
  | e :: rest =>
      if e = 'e' ∨ e = 'E' then
        let (sg, rest') := parseSign rest
        let ds := rest'.takeWhile Char.isDigit
        if ds.isEmpty ∨ ¬(rest'.drop ds.length).isEmpty then none
        else some (sg * (digitsVal ds : Int))
      else none

/-- Parse a Python float literal string into an exact fraction. -/
def parseFloatString (s : String) : Option PyFloat :=
  let (sg, cs) := parseSign s.toList
  let ip := cs.takeWhile Char.isDigit
  let rest := cs.drop ip.length
  let (fp, rest') :=
    match rest with
    | '.' :: r =>
        let f := r.takeWhile Char.isDigit
        (f, r.drop f.length)
    | _ => ([], rest)
  if ip.isEmpty ∧ fp.isEmpty then none
  else
    match parseExpPart rest' with
    | none => none
    | some ex =>
        let mantNum : Int := sg * (digitsVal ip * 10 ^ fp.length + digitsVal fp : Nat)
        let mantDen : Int := (10 : Int) ^ fp.length
        if 0 ≤ ex then some ⟨mantNum * 10 ^ ex.toNat, mantDen⟩
        else some ⟨mantNum, mantDen * 10 ^ (-ex).toNat⟩

/-- Python `float(v)`: numeric kinds coerce by value, strings parse, and
everything else raises (message shapes follow CPython). -/
def pyFloat : PyVal → Except String PyFloat
  | .pbool b => .ok (pfOfInt (if b then 1 else 0))
  | .pint n => .ok (pfOfInt n)
  | .pfloat q => .ok q
  | .pstr s =>
      match parseFloatString s with
      | some q => .ok q
      | none => .error ("could not convert string to float: " ++ s)
  | .pnone => .error "float() argument must be a string or a real number, not NoneType"
  | _ => .error "float() argument must be a string or a real number"

/-! ### Datetimes

A proleptic-Gregorian civil calendar; `PyDatetime.usec` counts microseconds
from 0001-01-01T00:00:00. -/

/-- Is the year a Gregorian leap year? -/
def isLeapYear (y : Nat) : Bool :=
  (y % 4 = 0 && y % 100 ≠ 0) || y % 400 = 0

/-- Number of days in a month. -/
def daysInMonth (y m : Nat) : Nat :=
  if m = 2 then (if isLeapYear y then 29 else 28)
  else if m = 4 ∨ m = 6 ∨ m = 9 ∨ m = 11 then 30
  else 31

/-- Days strictly before January 1 of year `y`, counted from 0001-01-01. -/
def daysBeforeYear (y : Nat) : Nat :=
  365 * (y - 1) + (y - 1) / 4 - (y - 1) / 100 + (y - 1) / 400

/-- Days in year `y` strictly before month `m`. -/
def daysBeforeMonth (y m : Nat) : Nat :=
  (List.range (m - 1)).foldl (fun acc i => acc + daysInMonth y (i + 1)) 0

/-- Day number of a civil date, with 0001-01-01 as day zero. -/
def civilToDays (y m d : Nat) : Nat :=
  daysBeforeYear y + daysBeforeMonth y m + (d - 1)

/-- Microseconds from 0001-01-01T00:00:00 to 1970-01-01T00:00:00. -/
def epochUsec : Int := (civilToDays 1970 1 1 : Int) * 86400000000

/-- The largest representable datetime, 9999-12-31T23:59:59.999999. -/
def maxUsec : Int := ((civilToDays 9999 12 31 : Int) * 86400 + 86399) * 1000000 + 999999

/-- The smallest representable datetime, `datetime.min`. -/
def datetimeMin : PyDatetime := ⟨0, none⟩

/-- Model of `datetime.fromtimestamp` under a UTC local timezone: a naive
datetime at `epoch + t`, or `none` (an `OverflowError`/`OSError`) when the
result falls outside the representable year range. -/
def fromtimestamp (t : PyFloat) : Option PyDatetime :=
  let u : Int := epochUsec + pfRound ⟨t.num * 1000000, t.den⟩
  if 0 ≤ u ∧ u ≤ maxUsec then some ⟨u, none⟩ else none

/-- Read exactly `n` decimal digits, returning their value and the rest. -/
def takeDigits (n : Nat) (cs : List Char) : Option (Nat × List Char) :=
  let ds := cs.take n
  if ds.length = n ∧ ds.all Char.isDigit then some (digitsVal ds, cs.drop n)
  else none

/-- Expect a literal character. -/
def expectChar (c : Char) : List Char → Option (List Char)
  | c' :: rest => if c' = c then some rest else none
  | [] => none

/-- Parse the optional fixed-offset suffix `±HH:MM`; returns the offset in
seconds. Fails on a malformed or out-of-range offset. -/
def parseOffset : List Char → Option (Option Int)
  | [] => some none
  | c :: rest =>
      if c = '+' ∨ c = '-' then
        match takeDigits 2 rest with
        | some (oh, r1) =>
            match expectChar ':' r1 with
            | some r2 =>
                match takeDigits 2 r2 with
                | some (om, r3) =>
                    if r3.isEmpty ∧ oh < 24 ∧ om < 60 then
                      some (some ((if c = '-' then -1 else 1) * ((oh : Int) * 3600 + om * 60)))
                    else none
                | none => none
            | none => none
        | none => none
      else none

/-- Parse the time-of-day part `HH:MM[:SS[.fff[fff]]]` followed by an optional
offset; returns (microseconds into the day, offset). -/
def parseTimePart (cs : List Char) : Option (Nat × Option Int) :=
  match takeDigits 2 cs with
  | none => none
  | some (h, r1) =>
    match expectChar ':' r1 with
    | none => none
    | some r2 =>
      match takeDigits 2 r2 with
      | none => none
      | some (mi, r3) =>
        let contAfterSec : Nat → List Char → Option (Nat × Option Int) :=
          fun secUsec r =>
            match parseOffset r with
            | none => none
            | some off =>
                if h < 24 ∧ mi < 60 then
                  some (((h * 3600 + mi * 60) * 1000000 + secUsec), off)
                else none
        match r3 with
        | ':' :: r4 =>
            match takeDigits 2 r4 with
            | none => none
            | some (s, r5) =>
                if s ≥ 60 then none else
                match r5 with
                | '.' :: r6 =>
                    let ds := r6.takeWhile Char.isDigit
                    if ds.length = 3 ∧ ds.all Char.isDigit then
                      contAfterSec (s * 1000000 + digitsVal ds * 1000) (r6.drop 3)
                    else if ds.length = 6 ∧ ds.all Char.isDigit then
                      contAfterSec (s * 1000000 + digitsVal ds) (r6.drop 6)
                    else none
                | _ => contAfterSec (s * 1000000) r5
        | _ => contAfterSec 0 r3

/-- Model of `datetime.fromisoformat` (CPython ≤ 3.10 grammar, restricted to
two-digit time fields and a `±HH:MM` offset): `YYYY-MM-DD` optionally
followed by any one-character separator and `HH:MM[:SS[.fff[fff]]][±HH:MM]`.
Returns `none` (a `ValueError`) on anything else. -/
def fromisoformat (s : String) : Option PyDatetime :=
  let cs := s.toList
  match takeDigits 4 cs with
  | none => none
  | some (y, r1) =>
    match expectChar '-' r1 with
    | none => none
    | some r2 =>
      match takeDigits 2 r2 with
      | none => none
      | some (m, r3) =>
        match expectChar '-' r3 with
        | none => none
        | some r4 =>
          match takeDigits 2 r4 with
          | none => none
          | some (d, r5) =>
            if ¬(1 ≤ y ∧ 1 ≤ m ∧ m ≤ 12 ∧ 1 ≤ d ∧ d ≤ daysInMonth y m) then none
            else
              let dayUsec : Int := (civilToDays y m d : Int) * 86400000000
              match r5 with
              | [] => some ⟨dayUsec, none⟩
              | _ :: r6 =>
                  match parseTimePart r6 with
                  | some (tu, off) => some ⟨dayUsec + tu, off⟩
                  | none => none

/-- Embedding of `_parse_timestamp` (services/firebase.py): total resolution
of an arbitrary value to a datetime, falling back to `datetime.min`. -/
def parseTimestamp : PyVal → PyDatetime
  | .pdt d => d
  | .pbool b => (fromtimestamp (pfOfInt (if b then 1 else 0))).getD datetimeMin
  | .pint n => (fromtimestamp (pfOfInt n)).getD datetimeMin
  | .pfloat q => (fromtimestamp q).getD datetimeMin
  | .pstr s =>
      match fromisoformat s with
      | some d => d
      | none =>
          match parseFloatString s with
          | some q => (fromtimestamp q).getD datetimeMin
          | none => datetimeMin
  | _ => datetimeMin

/-- Comparison key of a datetime: its UTC-adjusted microsecond value. Two
datetimes of the same awareness compare by this key; Python raises a
`TypeError` on an aware/naive comparison. -/
def dtKey (d : PyDatetime) : Int :=
  d.usec - (d.off.getD 0) * 1000000

/-! ### Stable descending sort

`sorted(entries, key=f, reverse=True)` is, extensionally, the stable
descending sort by `f`: equal keys keep their input order. We realize it
with Mathlib's stable `List.insertionSort` under the relation
`f b ≤ f a`. -/

/-- Stable descending sort by an integer key. -/
def sortDescBy (f : α → Int) (l : List α) : List α :=
  List.insertionSort (fun a b => f b ≤ f a) l

/-- The first element of the list attaining the maximal key (`none` for the
empty list): the element a stable descending sort puts first. -/
def firstMaxBy : (α → Int) → List α → Option α
  | _, [] => none
  | f, x :: xs =>
      some (match firstMaxBy f xs with
            | none => x
            | some m => if f m ≤ f x then x else m)

/-- Value of a record field, Python `e.get(k)` (None when absent or when the
value is not a dict). -/
def recGet (v : PyVal) (k : String) : PyVal :=
  match v with
  | .pdict d => dictGetD d k .pnone
  | _ => .pnone

/-- The sort key used for history entries: the resolved timestamp. -/
def entryDt (v : PyVal) : PyDatetime :=
  parseTimestamp (recGet v "timestamp")

/-- Integer comparison key of an entry (meaningful only within one
awareness class). -/
def entryKey (v : PyVal) : Int :=
  dtKey (entryDt v)

/-- Sorting history entries newest-first. Comparing a timezone-aware with a
timezone-naive datetime raises a `TypeError` in Python; any comparison sort
of a list containing at least one key of each awareness class must perform
at least one cross-class comparison, so the sort raises exactly when both
classes occur; otherwise all keys are mutually comparable and the result is
the stable descending sort. -/
def sortEntriesDesc (entries : List PyVal) : Except String (List PyVal) :=
  let keys := entries.map entryDt
  if (keys.any fun d => d.off.isSome) && (keys.any fun d => d.off.isNone) then
    .error "TypeError: cannot compare offset-naive and offset-aware datetimes"
  else
    .ok (sortDescBy entryKey entries)

/-- Values of a dict in insertion order (`d.values()`). -/
def dictValues (d : PyDict) : List PyVal :=
  d.map Prod.snd

/-- Embedding of `_normalize_updates_node` (services/firebase.py): collapse
the three historical node shapes into a list of update records. -/
def normalizeUpdatesNode : PyVal → List PyVal
  | .pnone => []
  | .plist l => l
  | .pdict d => if (dictValues d).any isDict then dictValues d else [.pdict d]
  | _ => []

/-- The structured entries of a keyed node:
`[v for v in node.values() if isinstance(v, dict)]`. -/
def nodeEntries (d : PyDict) : List PyVal :=
  (dictValues d).filter isDict

/-- Embedding of `_normalize_node_to_latest` (services/firebase.py): the
newest update of a node, or the single update, or `none`. The `.error` case
is the `TypeError` its timestamp sort can raise. -/
def normalizeNodeToLatest : PyVal → Except String (Option PyVal)
  | .pnone => .ok none
  | .pdict d =>
      if (dictValues d).any isDict then
        (sortEntriesDesc (nodeEntries d)).map (fun sorted => sorted.head?)
      else .ok (some (.pdict d))
  | _ => .ok none

/-! ### Token resolution -/

/-- The legacy realtime-database paths probed for a sensor's tokens. -/
def tokenPaths (sid : String) : List String :=
  ["EcoWatch/tokens/" ++ sid,
   "tokens/" ++ sid,
   "EcoWatch/sensors/" ++ sid ++ "/tokens",
   "EcoWatch/sensors/" ++ sid ++ "/push_tokens",
   "sensors/" ++ sid ++ "/tokens",
   "users/" ++ sid ++ "/tokens"]

/-- Strings harvested from one value of a token-path dict node: a string
value itself; for a dict value, its `token` field when that is a string,
otherwise all its string values. -/
def collectFromDictVal : PyVal → List String
  | .pstr s => [s]
  | .pdict sub =>
      match assocFind "token" sub with
      | some (.pstr t) => [t]
      | _ => (dictValues sub).filterMap asStr
  | _ => []

/-- Strings harvested from one token-path node (falsy nodes are skipped). -/
def collectFromNode (node : PyVal) : List String :=
  if pyTruthy node then
    match node with
    | .plist l => l.filterMap asStr
    | .pdict d => (dictValues d).flatMap collectFromDictVal
    | .pstr s => [s]
    | _ => []
  else []

/-- Inner loop of the seen-set dedup of `get_firebase_tokens`. -/
def dedupTokensGo : List String → List String → List String
  | _, [] => []
  | seen, t :: rest =>
      if t ≠ "" ∧ t ∉ seen then t :: dedupTokensGo (t :: seen) rest
      else dedupTokensGo seen rest

/-- Order-preserving dedup that also drops falsy (empty) strings, as in the
`seen` loop of `get_firebase_tokens`. -/
def dedupTokens (l : List String) : List String :=
  dedupTokensGo [] l

/-- Embedding of `get_firebase_tokens` (services/firebase.py): harvest every
legacy path of the realtime database, then dedup keeping first occurrences
and dropping empties. The database is the function `rtdb` from path to
node. -/
def getFirebaseTokens (rtdb : String → PyVal) (sid : String) : List String :=
  dedupTokens ((tokenPaths sid).flatMap (fun p => collectFromNode (rtdb p)))

/-- The `elif` chain over the legacy token field names of a device
document. -/
def extractDeviceTokenAlt (data : PyDict) : List PyVal :=
  match assocFind "fcm_token" data with
  | some v =>
      if pyTruthy v then [v]
      else match assocFind "token" data with
           | some w => if pyTruthy w then [w] else []
           | none => []
  | none =>
      match assocFind "token" data with
      | some w => if pyTruthy w then [w] else []
      | none => []

/-- The token carried by one Firestore `devices` document: the first truthy
value among the `fcmToken`, `fcm_token`, `token` fields. -/
def extractDeviceToken (data : PyDict) : List PyVal :=
  match assocFind "fcmToken" data with
  | some v =>
      if pyTruthy v then [v] else extractDeviceTokenAlt data
  | none => extractDeviceTokenAlt data

/-- Inner loop of the `list(set(...))` dedup, carrying the already-kept
elements. -/
def pySetDedupGo : List PyVal → List PyVal → List PyVal
  | _, [] => []
  | seen, t :: rest =>
      if pyMem t seen then pySetDedupGo seen rest
      else t :: pySetDedupGo (t :: seen) rest

/-- Dedup by Python `==`, keeping first occurrences. `list(set(l))` returns
the distinct elements in an unspecified order; we model it with this
canonical order, and no claim in scope depends on the order. -/
def pySetDedup (l : List PyVal) : List PyVal :=
  pySetDedupGo [] l

/-- Embedding of `get_firestore_tokens` (services/firebase.py): the token of
every device document, deduplicated. `list(set(...))` raises `TypeError` on
an unhashable element, which the surrounding catch-all converts to `[]`. -/
def getFirestoreTokens (devices : List PyDict) : List PyVal :=
  let toks := devices.flatMap extractDeviceToken
  if toks.any (fun t => !pyHashable t) then [] else pySetDedup toks

/-- Embedding of `get_all_tokens` (services/firebase.py): merge the realtime
database tokens (when a sensor id is given) with the Firestore device
tokens and deduplicate. -/
def getAllTokens (rtdb : String → PyVal) (devices : List PyDict) (sid : String) :
    List PyVal :=
  let fromRtdb := if sid ≠ "" then (getFirebaseTokens rtdb sid).map PyVal.pstr else []
  pySetDedup (fromRtdb ++ getFirestoreTokens devices)

/-! ### Notification dispatch -/

/-- One per-token provider response (`resp.success`, `resp.exception`). -/
structure SendResp where
  success : Bool
  exception : Option String
  deriving Repr, DecidableEq

/-- One provider batch response (`messaging.send_multicast` result). -/
structure BatchResponse where
  success_count : Nat
  failure_count : Nat
  responses : List SendResp
  deriving Repr

/-- One entry of the `failed_tokens` diagnostic list: either a per-token
record `{"token": token[:20]+"...", "error": msg}` or a batch-level record
`{"batch": n, "error": msg}`. -/
inductive FailedEntry where
  | tok (masked : String) (err : String)
  | batch (num : Nat) (err : String)
  deriving Repr, DecidableEq

/-- Result dict of `send_notification`; an absent key is `none`. -/
structure SendResult where
  success_count : Nat
  failure_count : Nat
  error : Option String
  total_tokens : Option Nat
  failed_tokens : Option (List FailedEntry)
  details : Option String
  deriving Repr, DecidableEq

/-- The truncated token recorded for a per-token failure:
`token[:20] + "..."`. -/
def maskTok (t : String) : String :=
  ⟨t.data.take 20⟩ ++ "..."

/-- Walk a batch's per-token responses, collecting the diagnostic entries of
the failed ones. A response index beyond the token list is the `IndexError`
the source would hit at `batch_tokens[idx]`; entries appended before it are
kept, as the source mutates its list in place. -/
def walkResponses : List SendResp → List String → Nat → List FailedEntry × Option String
  | [], _, _ => ([], none)
  | r :: rest, bt, idx =>
      if r.success then walkResponses rest bt (idx + 1)
      else
        match bt.get? idx with
        | some t =>
            let p := walkResponses rest bt (idx + 1)
            (FailedEntry.tok (maskTok t) (r.exception.getD "Unknown error") :: p.1, p.2)
        | none => ([], some "IndexError: list index out of range")

/-- Building the multicast message raises only when `alert_data["data"]` is
present and not a dict (its `.items()` call fails); `str(v)` on the values
is total. -/
def buildMessage (ad : PyDict) : Except String Unit :=
  match assocFind "data" ad with
  | none => .ok ()
  | some (.pdict _) => .ok ()
  | some _ => .error "AttributeError: object has no attribute items"

/-- Mutable state of the batch loop: success and failure totals, the
`failed_tokens` diagnostics, and the token batches actually handed to the
provider (the trace of provider invocations). -/
structure SendState where
  succ : Nat
  fail : Nat
  entries : List FailedEntry
  calls : List (List String)
  deriving Repr

/-- One iteration of the batch loop of `send_notification`: build the
message, call the provider, aggregate counts; any exception in the
iteration body is caught at batch level, counting the whole batch failed. -/
def processBatch (provider : Nat → List String → Except String BatchResponse)
    (ad : PyDict) (bnum : Nat) (st : SendState) (bt : List String) : SendState :=
  match buildMessage ad with
  | .error e => ⟨st.succ, st.fail + bt.length, st.entries ++ [.batch (bnum + 1) e], st.calls⟩
  | .ok _ =>
    match provider bnum bt with
    | .error e =>
        ⟨st.succ, st.fail + bt.length, st.entries ++ [.batch (bnum + 1) e], st.calls ++ [bt]⟩
    | .ok r =>
        if r.failure_count > 0 then
          match walkResponses r.responses bt 0 with
          | (es, none) =>
              ⟨st.succ + r.success_count, st.fail + r.failure_count,
               st.entries ++ es, st.calls ++ [bt]⟩
          | (es, some e2) =>
              ⟨st.succ + r.success_count, st.fail + r.failure_count + bt.length,
               st.entries ++ es ++ [.batch (bnum + 1) e2], st.calls ++ [bt]⟩
        else
          ⟨st.succ + r.success_count, st.fail + r.failure_count, st.entries, st.calls ++ [bt]⟩

/-- The batch loop `for i in range(0, len(valid_tokens), 500)`. -/
def sendLoop (provider : Nat → List String → Except String BatchResponse)
    (ad : PyDict) : Nat → List String → SendState → SendState
  | _, [], st => st
  | bnum, t :: rest, st =>
      sendLoop provider ad (bnum + 1) ((t :: rest).drop 500)
        (processBatch provider ad bnum st ((t :: rest).take 500))
  termination_by _ toks _ => toks.length
  decreasing_by simp [List.length_drop]; omega

/-- The token filter of `send_notification`:
`t and isinstance(t, str) and len(t) > 10`. -/
def tokenOk (t : PyVal) : Option String :=
  if pyTruthy t then
    match t with
    | .pstr s => if s.length > 10 then some s else none
    | _ => none
  else none

/-- The valid-token list of `send_notification`: the truthy strings longer
than 10 characters, in order. -/
def validTokens (tokens : List PyVal) : List String :=
  tokens.filterMap tokenOk

/-- Embedding of `send_notification` (services/firebase.py). Returns the
result dict together with the trace of provider invocations (the second
component is observational only; the source returns just the dict). -/
def sendNotification (provider : Nat → List String → Except String BatchResponse)
    (tokens : List PyVal) (ad : PyDict) : SendResult × List (List String) :=
  if tokens.isEmpty then
    (⟨0, 0, some "no tokens provided", none, none, none⟩, [])
  else
    let valid := validTokens tokens
    if valid.isEmpty then
      (⟨0, 0, some "no valid tokens provided", none, none, none⟩, [])
    else
      let fin := sendLoop provider ad 0 valid ⟨0, 0, [], []⟩
      (⟨fin.succ, fin.fail, none, some valid.length,
        if fin.entries.isEmpty then none else some (fin.entries.take 5), none⟩,
       fin.calls)

/-! ### The classifier adapter (ml_models/predictor.py) -/

/-- The opaque classifier artifact: `predict` returns a vector of class
indices, `predict_proba` (when exposed) a matrix of per-class
probabilities; either call may throw. -/
structure Classifier where
  predictFn : List PyFloat → Except String (List Int)
  probaFn : Option (List PyFloat → Except String (List (List PyFloat)))

/-- Python list indexing `l[i]` with negative-index wrap-around, raising
`IndexError` out of range. -/
def pyIndexE (l : List α) (i : Int) : Except String α :=
  let n : Int := l.length
  let j : Int := if i < 0 then i + n else i
  match (if 0 ≤ j then l.get? j.toNat else none) with
  | some x => .ok x
  | none => .error "IndexError: index out of range"

/-- Lower-casing by characters (the `activity` strings in scope are
ASCII, where this agrees with Python `str.lower`). -/
def strLower (s : String) : String :=
  ⟨s.data.map Char.toLower⟩

/-- Python `s.lower()`; any non-string receiver raises `AttributeError`. -/
def pyLower : PyVal → Except String String
  | .pstr s => .ok (strLower s)
  | _ => .error "AttributeError: object has no attribute lower"

/-- The hardcoded fallback configuration of `_load_config`. -/
def defaultModelConfig : PyDict :=
  [("model_name", .pstr "ecowatch_mining_detector"),
   ("version", .pstr "1.0"),
   ("output_classes", .pdict
     [("0", .pstr "Normal ground activity"),
      ("1", .pstr "Possible illegal mining activity")]),
   ("threshold", .pfloat ⟨5, 10⟩)]

/-- Embedding of `MiningActivityPredictor.preprocess_sensor_data`: when the
record carries all three authoritative feature fields, coerce each to
float (raising on a non-numeric value); otherwise derive the heuristic
signature from `activity` and `isTriggered`. Returns the ordered feature
row `[Max_Amplitude, RMS_Ratio, Power_Ratio]`. -/
def preprocessSensorData (sd : PyDict) : Except String (List PyFloat) :=
  if dictHasKey sd "Max_Amplitude" ∧ dictHasKey sd "RMS_Ratio" ∧
      dictHasKey sd "Power_Ratio" then do
    let a ← pyFloat (dictGetD sd "Max_Amplitude" (.pfloat ⟨0, 1⟩))
    let r ← pyFloat (dictGetD sd "RMS_Ratio" (.pfloat ⟨0, 1⟩))
    let p ← pyFloat (dictGetD sd "Power_Ratio" (.pfloat ⟨0, 1⟩))
    pure [a, r, p]
  else do
    let act ← pyLower (dictGetD sd "activity" (.pstr "idle"))
    let trig := pyTruthy (dictGetD sd "isTriggered" (.pbool false))
    if (act = "excavation" ∨ act = "drilling") ∧ trig then
      pure [⟨12, 1000000⟩, ⟨55, 100⟩, ⟨10, 100⟩]
    else if act = "vibration" ∧ trig then
      pure [⟨2, 100000⟩, ⟨70, 100⟩, ⟨12, 100⟩]
    else
      pure [⟨1, 1000⟩, ⟨100, 100⟩, ⟨20, 100⟩]

/-- Resolve the human label of a predicted class from the configuration:
`config["output_classes"].get(str(int(p)), "Unknown (Class p)")`. -/
def classLabelOf (cfg : PyDict) (pred : Int) : Except String PyVal := do
  let oc ← dictGetE cfg "output_classes"
  match oc with
  | .pdict ocd =>
      pure (dictGetD ocd (toString pred)
        (.pstr ("Unknown (Class " ++ toString pred ++ ")")))
  | _ => .error "AttributeError: object has no attribute get"

/-- The error-shaped result `predict` returns when its body throws. -/
def errResult (e now : String) : PyDict :=
  [("error", .pstr e),
   ("prediction", .pnone),
   ("class_label", .pstr "Error"),
   ("is_alert", .pbool false),
   ("timestamp", .pstr now)]

/-- The body of the `try` block of `predict`: preprocess, run inference,
resolve probabilities, label, alert flag and level, and build the result
dict. -/
def innerPredict (m : Classifier) (cfg : PyDict) (now : String) (sd : PyDict) :
    Except String PyDict := do
  let X ← preprocessSensorData sd
  let ys ← m.predictFn X
  let pred ← pyIndexE ys 0
  let cp ← match m.probaFn with
    | some f => do
        let pss ← f X
        let row ← pyIndexE pss 0
        let c ← pyIndexE row pred
        pure (c, row.mapIdx (fun i p => (toString i, PyVal.pfloat p)))
    | none => pure (pfOfInt 1, [(toString pred, PyVal.pfloat (pfOfInt 1))])
  let conf := cp.1
  let label ← classLabelOf cfg pred
  let isAlert := pred = 1
  let level : PyVal :=
    if isAlert then
      if pfLt ⟨8, 10⟩ conf then .pstr "high"
      else if pfLt ⟨5, 10⟩ conf then .pstr "medium"
      else .pstr "low"
    else .pnone
  pure
    [("prediction", .pint pred),
     ("class_label", label),
     ("confidence", .pfloat conf),
     ("all_probabilities", .pdict cp.2),
     ("is_alert", .pbool isAlert),
     ("alert_level", level),
     ("timestamp", .pstr now),
     ("model_version", dictGetD cfg "version" (.pstr "1.0")),
     ("sensor_id", dictGetD sd "sensor_id" (.pstr "unknown"))]

/-- Embedding of `MiningActivityPredictor.predict`: raises
`RuntimeError("Model not loaded")` when `self.model is None` (this check
sits before the `try` block), and otherwise catches every exception of the
body into the error-shaped result. -/
def mlPredict (model : Option Classifier) (cfg : PyDict) (now : String)
    (sd : PyDict) : Except String PyDict :=
  match model with
  | none => .error "Model not loaded"
  | some m =>
      match innerPredict m cfg now sd with
      | .ok d => .ok d
      | .error e => .ok (errResult e now)

/-! ### The alert pipeline (services/ml_service.py) -/

/-- Python `str(v)`. Float and container reprs are approximated; these
strings flow only into opaque payload fields and database path strings of
the abstract environment, and no claim in scope inspects them. -/
def pyStr : PyVal → String
  | .pnone => "None"
  | .pbool b => if b then "True" else "False"
  | .pint n => toString n
  | .pfloat q => if q.den = 1 then toString q.num
      else toString q.num ++ "/" ++ toString q.den
  | .pstr s => s
  | .pdt _ => "datetime"
  | .plist _ => "[...]"
  | .pdict _ => "\x7b...\x7d"

/-- The f-string conversion `f"{v:.1%}"`: percentage with one decimal for a
numeric value, `ValueError` otherwise. Rounding is half-up where CPython
uses the float's shortest repr; the result flows only into the opaque
notification body. -/
def formatPercent1 (v : PyVal) : Except String String :=
  match numVal v with
  | some q =>
      let n : Int := pfRound ⟨q.num * 1000, q.den⟩
      .ok (toString (n / 10) ++ "." ++ toString (n % 10).natAbs ++ "%")
  | none => .error "ValueError: unknown format code for object of this type"

/-- The world a pipeline run interacts with: the classifier singleton and
its configuration, the clock, the outcome of the prediction push, the
realtime database, and the notification provider. -/
structure Env where
  model : Option Classifier
  config : PyDict
  now : String
  pushOutcome : Except String Unit
  rtdb : String → PyVal
  provider : Nat → List String → Except String BatchResponse

/-- The dict `predict_and_store` returns when its body throws. -/
def psErr (e now : String) : PyDict :=
  [("error", .pstr e), ("is_alert", .pbool false), ("timestamp", .pstr now)]

/-- Embedding of `predict_and_store` (services/ml_service.py): run the
prediction and push it under the sensor's prediction history; the catch-all
converts any exception — including a failed push — into `psErr`. The push
payload (prediction plus originating reading and ingestion timestamp) does
not influence the returned value and is abstracted by `env.pushOutcome`. -/
def predictAndStore (env : Env) (sd : PyDict) : PyDict :=
  match mlPredict env.model env.config env.now sd with
  | .error e => psErr e env.now
  | .ok pr =>
      if pyTruthy (dictGetD sd "sensor_id" .pnone) then
        match env.pushOutcome with
        | .error e => psErr e env.now
        | .ok _ => pr
      else pr

/-- The notification component of a `predict_and_alert` result: either the
dict returned by `send_notification`, or the structured no-recipients dict
`{"error": msg}`. -/
inductive NotifResult where
  | sent (r : SendResult)
  | noTokens (msg : String)
  deriving Repr, DecidableEq

/-- `notification_result.get("success_count", 0)`: the no-recipients dict
carries no count, so it reads as 0. -/
def notifSuccessCount : NotifResult → Nat
  | .sent r => r.success_count
  | .noTokens _ => 0

/-- The final `alert_sent` expression:
`notification_result is not None and notification_result.get("success_count", 0) > 0`. -/
def alertSentOf : Option NotifResult → Bool
  | none => false
  | some nr => notifSuccessCount nr > 0

/-- The combined result dict of `predict_and_alert`. -/
structure EvalResult where
  prediction : PyDict
  notification : Option NotifResult
  alert_sent : Bool
  deriving Repr

/-- The alert payload assembled in the alert branch of `predict_and_alert`;
the subscript lookups on the prediction dict can raise `KeyError` and the
`:.1%` format can raise on a non-numeric confidence. -/
def alertDataOf (pr : PyDict) (sidv : PyVal) : Except String PyDict := do
  let conf := dictGetD pr "confidence" (.pint 0)
  let levelv := dictGetD pr "alert_level" (.pstr "medium")
  let emoji := if pyEq levelv (.pstr "high") then "🚨" else "⚠️"
  let cl ← dictGetE pr "class_label"
  let confS ← formatPercent1 conf
  let predv ← dictGetE pr "prediction"
  let tsv ← dictGetE pr "timestamp"
  pure
    [("title", .pstr (emoji ++ " Mining Alert - Sensor " ++ pyStr sidv)),
     ("body", .pstr (pyStr cl ++ " detected with " ++ confS ++ " confidence")),
     ("data", .pdict
       [("sensor_id", sidv),
        ("prediction", .pstr (pyStr predv)),
        ("class_label", cl),
        ("confidence", .pstr (pyStr conf)),
        ("alert_level", levelv),
        ("timestamp", tsv),
        ("type", .pstr "mining_detection")])]

/-- Embedding of `predict_and_alert` (services/ml_service.py): store the
prediction, and when it is an alert and `auto_notify` holds, resolve the
sensor's tokens from the realtime database and dispatch; with no tokens,
record the structured no-recipients outcome instead. An uncaught exception
of the alert branch propagates to the caller (`.error`). -/
def predictAndAlert (env : Env) (sd : PyDict) (autoNotify : Bool) :
    Except String EvalResult := do
  let pr := predictAndStore env sd
  if pyTruthy (dictGetD pr "is_alert" .pnone) ∧ autoNotify then do
    let sidv := dictGetD sd "sensor_id" .pnone
    let ad ← alertDataOf pr sidv
    let tokens := getFirebaseTokens env.rtdb (pyStr sidv)
    let notif : Option NotifResult :=
      if tokens.isEmpty then some (.noTokens "No FCM tokens found for sensor")
      else some (.sent (sendNotification env.provider (tokens.map PyVal.pstr) ad).1)
    pure ⟨pr, notif, alertSentOf notif⟩
  else
    pure ⟨pr, none, alertSentOf none⟩

/-! ### Shared sample inputs used by witnesses and counterexamples -/

/-- A reading with no numeric features: the confirmed-mining heuristic
bucket. -/
def sdDrill : PyDict :=
  [("sensor_id", .pstr "SNR-007"), ("activity", .pstr "drilling"),
   ("isTriggered", .pbool true)]

/-- A reading carrying the three authoritative fields with a non-numeric
amplitude. -/
def sdBadAmp : PyDict :=
  [("Max_Amplitude", .pstr "abc"), ("RMS_Ratio", .pint 1), ("Power_Ratio", .pint 1)]

/-- A classifier that always reports class 1 and exposes no probabilities. -/
def clsOne : Classifier := ⟨fun _ => .ok [1], none⟩

/-- Is an `Except` a success? -/
def isOkE : Except ε α → Bool
  | .ok _ => true
  | .error _ => false

/-! ### Claim C1 — `predict` error handling -/

/-- Claim C1 (amended): with a loaded classifier, `predict` never raises —
any exception of its body, in particular a feature-coercion failure on
malformed input, is converted into the error-shaped result (`prediction`
null, `class_label` "Error", `is_alert` false, `error` message). With a
missing/unloaded classifier, however, `predict` raises
`RuntimeError("Model not loaded")` instead of returning such a result. -/
theorem c1_predict_error_shape (m : Classifier) (cfg : PyDict) (now : String)
    (sd : PyDict) :
    mlPredict none cfg now sd = .error "Model not loaded"
    ∧ (∃ d, mlPredict (some m) cfg now sd = .ok d)
    ∧ (∀ e, preprocessSensorData sd = .error e →
        mlPredict (some m) cfg now sd = .ok (errResult e now)) := by
  refine ⟨rfl, ?_, ?_⟩
  · cases h : innerPredict m cfg now sd with
    | ok d => exact ⟨d, by simp [mlPredict, h]⟩
    | error e => exact ⟨errResult e now, by simp [mlPredict, h]⟩
  · intro e he
    have hinner : innerPredict m cfg now sd = .error e := by
      simp [innerPredict, he, Bind.bind, Except.bind]
    simp [mlPredict, hinner]

/-- Claim C1 witness: the amended theorem applied to a malformed reading
(the error-shaped result carries the coercion message). -/
theorem c1_predict_error_shape_witness :
    preprocessSensorData sdBadAmp = .error "could not convert string to float: abc"
    ∧ mlPredict (some clsOne) defaultModelConfig "T" sdBadAmp =
        .ok (errResult "could not convert string to float: abc" "T") := by
  refine ⟨rfl, ?_⟩
  exact (c1_predict_error_shape clsOne defaultModelConfig "T" sdBadAmp).2.2
    "could not convert string to float: abc" rfl

/-- Claim C1 counterexample: with a missing classifier, `predict` on a
well-formed reading propagates `RuntimeError("Model not loaded")` rather
than returning a result with `class_label = "Error"`. -/
theorem c1_predict_error_shape_counterexample :
    mlPredict none defaultModelConfig "T" sdDrill = .error "Model not loaded" := rfl

/-! ### Claim C2 — feature extraction on authoritative fields -/

/-- Claim C2 (amended): when a record carries all three authoritative
feature fields, extraction coerces each value with `float(...)` and is
exception-free precisely when every value is float-coercible; a missing or
non-numeric value makes the extraction raise (the failure surfaces to
`predict`'s handler as an error result — see C1 — rather than falling
through to the heuristic bucket). -/
theorem c2_feature_coercion (sd : PyDict)
    (h1 : dictHasKey sd "Max_Amplitude" = true)
    (h2 : dictHasKey sd "RMS_Ratio" = true)
    (h3 : dictHasKey sd "Power_Ratio" = true) :
    (isOkE (preprocessSensorData sd) =
      (isOkE (pyFloat (dictGetD sd "Max_Amplitude" (.pfloat ⟨0, 1⟩)))
        && isOkE (pyFloat (dictGetD sd "RMS_Ratio" (.pfloat ⟨0, 1⟩)))
        && isOkE (pyFloat (dictGetD sd "Power_Ratio" (.pfloat ⟨0, 1⟩)))))
    ∧ (∀ a r p, pyFloat (dictGetD sd "Max_Amplitude" (.pfloat ⟨0, 1⟩)) = .ok a →
        pyFloat (dictGetD sd "RMS_Ratio" (.pfloat ⟨0, 1⟩)) = .ok r →
        pyFloat (dictGetD sd "Power_Ratio" (.pfloat ⟨0, 1⟩)) = .ok p →
        preprocessSensorData sd = .ok [a, r, p]) := by
  have hpre : preprocessSensorData sd =
      (pyFloat (dictGetD sd "Max_Amplitude" (.pfloat ⟨0, 1⟩))).bind (fun a =>
        (pyFloat (dictGetD sd "RMS_Ratio" (.pfloat ⟨0, 1⟩))).bind (fun r =>
          (pyFloat (dictGetD sd "Power_Ratio" (.pfloat ⟨0, 1⟩))).bind (fun p =>
            Except.ok [a, r, p]))) := by
    unfold preprocessSensorData
    rw [if_pos ⟨h1, h2, h3⟩]
    rfl
  constructor
  · cases ha : pyFloat (dictGetD sd "Max_Amplitude" (.pfloat ⟨0, 1⟩)) with
    | error e => rw [hpre, ha]; rfl
    | ok a =>
      cases hr : pyFloat (dictGetD sd "RMS_Ratio" (.pfloat ⟨0, 1⟩)) with
      | error e => rw [hpre, ha, hr]; rfl
      | ok r =>
        cases hp : pyFloat (dictGetD sd "Power_Ratio" (.pfloat ⟨0, 1⟩)) with
        | error e => rw [hpre, ha, hr, hp]; rfl
        | ok p => rw [hpre, ha, hr, hp]; rfl
  · intro a r p ha hr hp
    rw [hpre, ha, hr, hp]
    rfl

/-- Claim C2 witness: the amended theorem applied to a record with three
numeric authoritative fields. -/
theorem c2_feature_coercion_witness :
    preprocessSensorData
      [("Max_Amplitude", .pfloat ⟨12, 1000000⟩), ("RMS_Ratio", .pfloat ⟨55, 100⟩),
       ("Power_Ratio", .pint 1)] = .ok [⟨12, 1000000⟩, ⟨55, 100⟩, pfOfInt 1] :=
  (c2_feature_coercion
    [("Max_Amplitude", .pfloat ⟨12, 1000000⟩), ("RMS_Ratio", .pfloat ⟨55, 100⟩),
     ("Power_Ratio", .pint 1)] rfl rfl rfl).2 _ _ _ rfl rfl rfl

/-- Claim C2 counterexample: a record carrying the three authoritative
fields with a non-numeric value makes feature extraction raise — it neither
coerces nor falls through to the heuristic bucket. -/
theorem c2_feature_coercion_counterexample :
    preprocessSensorData sdBadAmp = .error "could not convert string to float: abc" := rfl

/-! ### Claim C4 — normalization of the three historical node shapes -/

/-- Claim C4: for each historical node shape, `_normalize_updates_node`
returns exactly the input records — the values of a keyed mapping, the
one-element sequence of a single flat record, a sequence unchanged, and the
empty sequence for an absent node — and, being a total function, raises
nothing. -/
theorem c4_normalize_shapes (d : PyDict) (l : List PyVal) :
    normalizeUpdatesNode .pnone = []
    ∧ normalizeUpdatesNode (.plist l) = l
    ∧ (d ≠ [] → (∀ kv ∈ d, isDict kv.2 = true) →
        normalizeUpdatesNode (.pdict d) = dictValues d)
    ∧ ((∀ kv ∈ d, isDict kv.2 = false) →
        normalizeUpdatesNode (.pdict d) = [.pdict d]) := by
  refine ⟨rfl, rfl, ?_, ?_⟩
  · intro hne hall
    have hany : (dictValues d).any isDict = true := by
      match d, hne with
      | kv :: rest, _ =>
        simp only [dictValues, List.map_cons, List.any_cons, Bool.or_eq_true]
        exact Or.inl (hall kv (by simp))
    simp [normalizeUpdatesNode, hany]
  · intro hall
    have hany : (dictValues d).any isDict = false := by
      simp only [List.any_eq_false, dictValues, List.mem_map]
      rintro v ⟨kv, hkv, rfl⟩
      simp [hall kv hkv]
    simp [normalizeUpdatesNode, hany]

/-- Claim C4 witness: the shape theorem applied to a two-record keyed
mapping and, through its last conjunct, to a flat record. -/
theorem c4_normalize_shapes_witness :
    normalizeUpdatesNode
      (.pdict [("k1", .pdict [("activity", .pstr "idle")]),
               ("k2", .pdict [("activity", .pstr "drilling")])]) =
      [.pdict [("activity", .pstr "idle")], .pdict [("activity", .pstr "drilling")]]
    ∧ normalizeUpdatesNode (.pdict [("activity", .pstr "idle")]) =
        [.pdict [("activity", .pstr "idle")]] := by
  constructor
  · exact (c4_normalize_shapes
      [("k1", .pdict [("activity", .pstr "idle")]),
       ("k2", .pdict [("activity", .pstr "drilling")])] []).2.2.1
      (by simp) (by decide)
  · exact (c4_normalize_shapes [("activity", .pstr "idle")] []).2.2.2 (by decide)

/-! ### Claim C3 — latest element under the resolved-timestamp order -/

/-- The head of the stable descending sort is the first maximum. -/
theorem head_sortDescBy (f : α → Int) (l : List α) :
    (sortDescBy f l).head? = firstMaxBy f l := by
  induction l with
  | nil => rfl
  | cons x xs ih =>
    show (List.orderedInsert _ x (List.insertionSort _ xs)).head? = _
    cases hs : List.insertionSort (fun a b => f b ≤ f a) xs with
    | nil =>
      have hlen := List.length_insertionSort (fun a b => f b ≤ f a) xs
      rw [hs] at hlen
      have hxs : xs = [] := List.eq_nil_of_length_eq_zero hlen.symm
      subst hxs
      rfl
    | cons y rest =>
      have hy : firstMaxBy f xs = some y := by
        rw [← ih]
        show (List.insertionSort (fun a b => f b ≤ f a) xs).head? = some y
        rw [hs]
        rfl
      by_cases hc : f y ≤ f x
      · simp [List.orderedInsert, hc, firstMaxBy, hy]
      · simp [List.orderedInsert, hc, firstMaxBy, hy]

/-- Unfolding of `firstMaxBy` over a cons whose tail has a first maximum. -/
theorem firstMaxBy_cons_some (f : α → Int) (x : α) (xs : List α) (m : α)
    (h : firstMaxBy f xs = some m) :
    firstMaxBy f (x :: xs) = some (if f m ≤ f x then x else m) := by
  simp [firstMaxBy, h]

/-- The first maximum of a non-empty list: it is an element, it dominates
every element, and it strictly dominates everything before it. -/
theorem firstMaxBy_spec (f : α → Int) (l : List α) (hne : l ≠ []) :
    ∃ (i : Nat) (hi : i < l.length),
      firstMaxBy f l = some (l.get ⟨i, hi⟩)
      ∧ (∀ (j : Nat) (hj : j < l.length), f (l.get ⟨j, hj⟩) ≤ f (l.get ⟨i, hi⟩))
      ∧ (∀ (j : Nat) (hj : j < i),
          f (l.get ⟨j, Nat.lt_trans hj hi⟩) < f (l.get ⟨i, hi⟩)) := by
  induction l with
  | nil => exact absurd rfl hne
  | cons x xs ih =>
    cases hm : firstMaxBy f xs with
    | none =>
      have hxs : xs = [] := by
        cases xs with
        | nil => rfl
        | cons a b => simp [firstMaxBy] at hm
      subst hxs
      refine ⟨0, by simp, by simp [firstMaxBy], ?_, ?_⟩
      · intro j hj
        have hj0 : j = 0 := by simpa using hj
        subst hj0
        exact le_refl _
      · intro j hj
        exact absurd hj (Nat.not_lt_zero j)
    | some m =>
      have hne' : xs ≠ [] := by
        intro h
        subst h
        simp [firstMaxBy] at hm
      obtain ⟨i, hi, heq, hmax, hfirst⟩ := ih hne'
      have hm' : m = xs.get ⟨i, hi⟩ := by
        rw [hm] at heq
        exact Option.some.inj heq
      subst hm'
      by_cases hc : f (xs.get ⟨i, hi⟩) ≤ f x
      · refine ⟨0, by simp, ?_, ?_, ?_⟩
        · rw [firstMaxBy_cons_some f x xs _ hm, if_pos hc]
          rfl
        · intro j hj
          cases j with
          | zero => exact le_refl _
          | succ j' =>
            have hj' : j' < xs.length := by simpa using hj
            have h1 := hmax j' hj'
            simpa using le_trans h1 hc
        · intro j hj
          exact absurd hj (Nat.not_lt_zero j)
      · have hlt : f x < f (xs.get ⟨i, hi⟩) := lt_of_not_le hc
        refine ⟨i + 1, by simpa using Nat.succ_lt_succ hi, ?_, ?_, ?_⟩
        · rw [firstMaxBy_cons_some f x xs _ hm, if_neg hc]
          rfl
        · intro j hj
          cases j with
          | zero => simpa using le_of_lt hlt
          | succ j' =>
            have hj' : j' < xs.length := by simpa using hj
            simpa using hmax j' hj'
        · intro j hj
          cases j with
          | zero => simpa using hlt
          | succ j' =>
            have hj' : j' < i := by simpa using hj
            simpa using hfirst j' hj'

/-- Claim C3 (amended): timestamp resolution is a total function sending
every unparseable or missing timestamp to `datetime.min`, and on every
keyed node whose resolved timestamps all lie in one awareness class (all
naive or all aware) the sort compares without raising and `latest` is the
entry with the maximal resolved timestamp, ties broken by input order —
the returned entry dominates all entries and strictly dominates all
earlier ones. (Mixed awareness classes raise; see the counterexample.) -/
theorem c3_latest_stable_max (d : PyDict)
    (hany : (dictValues d).any isDict = true)
    (hhomog : (nodeEntries d).all (fun e => (entryDt e).off.isNone) = true
        ∨ (nodeEntries d).all (fun e => (entryDt e).off.isSome) = true) :
    (∀ s : String, fromisoformat s = none → parseFloatString s = none →
        parseTimestamp (.pstr s) = datetimeMin)
    ∧ parseTimestamp .pnone = datetimeMin
    ∧ ∃ (i : Nat) (hi : i < (nodeEntries d).length),
        normalizeNodeToLatest (.pdict d) =
          .ok (some ((nodeEntries d).get ⟨i, hi⟩))
        ∧ (∀ (j : Nat) (hj : j < (nodeEntries d).length),
            entryKey ((nodeEntries d).get ⟨j, hj⟩) ≤
              entryKey ((nodeEntries d).get ⟨i, hi⟩))
        ∧ (∀ (j : Nat) (hj : j < i),
            entryKey ((nodeEntries d).get ⟨j, Nat.lt_trans hj hi⟩) <
              entryKey ((nodeEntries d).get ⟨i, hi⟩)) := by
  refine ⟨?_, rfl, ?_⟩
  · intro s h1 h2
    simp [parseTimestamp, h1, h2]
  · have hne : nodeEntries d ≠ [] := by
      rw [List.any_eq_true] at hany
      obtain ⟨v, hv, hvd⟩ := hany
      have : v ∈ nodeEntries d := List.mem_filter.mpr ⟨hv, hvd⟩
      exact List.ne_nil_of_mem this
    have hsort : sortEntriesDesc (nodeEntries d) =
        .ok (sortDescBy entryKey (nodeEntries d)) := by
      unfold sortEntriesDesc
      rcases hhomog with hall | hall
      · have h1 : ((nodeEntries d).map entryDt).any (fun t => t.off.isSome) = false := by
          rw [List.any_eq_false]
          intro t ht
          rw [List.mem_map] at ht
          obtain ⟨e, he, rfl⟩ := ht
          rw [List.all_eq_true] at hall
          have := hall e he
          simp only [Option.isNone_iff_eq_none] at this
          simp [this]
        simp [h1]
      · have h1 : ((nodeEntries d).map entryDt).any (fun t => t.off.isNone) = false := by
          rw [List.any_eq_false]
          intro t ht
          rw [List.mem_map] at ht
          obtain ⟨e, he, rfl⟩ := ht
          rw [List.all_eq_true] at hall
          have := hall e he
          rw [Option.isSome_iff_exists] at this
          obtain ⟨a, ha⟩ := this
          simp [ha]
        simp [h1]
    obtain ⟨i, hi, heq, hmax, hfirst⟩ := firstMaxBy_spec entryKey (nodeEntries d) hne
    refine ⟨i, hi, ?_, hmax, hfirst⟩
    have hlatest : normalizeNodeToLatest (.pdict d) =
        (sortEntriesDesc (nodeEntries d)).map (fun sorted => sorted.head?) := by
      simp [normalizeNodeToLatest, hany]
    rw [hlatest, hsort]
    show Except.ok (sortDescBy entryKey (nodeEntries d)).head? = _
    rw [head_sortDescBy, heq]

/-- Claim C3 witness: the amended theorem applied to a keyed node with two
naive timestamps, picking the newer entry. -/
theorem c3_latest_stable_max_witness :
    normalizeNodeToLatest
      (.pdict [("a", .pdict [("timestamp", .pstr "2021-01-01T00:00:00")]),
               ("b", .pdict [("timestamp", .pstr "2022-05-01T00:00:00")])]) =
      .ok (some (.pdict [("timestamp", .pstr "2022-05-01T00:00:00")])) := by
  obtain ⟨i, hi, heq, hmax, -⟩ :=
    (c3_latest_stable_max
      [("a", .pdict [("timestamp", .pstr "2021-01-01T00:00:00")]),
       ("b", .pdict [("timestamp", .pstr "2022-05-01T00:00:00")])]
      (by decide) (Or.inl (by decide))).2.2
  match i, hi, heq, hmax with
  | 0, hi, heq, hmax =>
    exfalso
    have h1 := hmax 1 (by decide)
    have h2 : entryKey (.pdict [("timestamp", .pstr "2022-05-01T00:00:00")]) ≤
        entryKey (.pdict [("timestamp", .pstr "2021-01-01T00:00:00")]) := h1
    revert h2
    decide
  | 1, hi, heq, hmax => exact heq
  | n + 2, hi, heq, hmax =>
    exfalso
    simp [nodeEntries, dictValues, isDict] at hi

/-- Claim C3 counterexample: a keyed node holding one ISO timestamp with a
UTC offset (resolving to an aware datetime) and one unparseable timestamp
(resolving to the naive `datetime.min`) makes the descending sort raise
`TypeError` — comparing resolved timestamps is not raise-free. -/
theorem c3_latest_stable_max_counterexample :
    normalizeNodeToLatest
      (.pdict [("a", .pdict [("timestamp", .pstr "2021-01-01T00:00:00+00:00")]),
               ("b", .pdict [("timestamp", .pstr "garbage")])]) =
      .error "TypeError: cannot compare offset-naive and offset-aware datetimes" := by
  rfl

/-! ### Claims C6 and C7 — the alert pipeline -/

/-- The prediction dict produced for `sdDrill` by `clsOne` at time "T". -/
def predDrillDict : PyDict :=
  [("prediction", .pint 1),
   ("class_label", .pstr "Possible illegal mining activity"),
   ("confidence", .pfloat ⟨1, 1⟩),
   ("all_probabilities", .pdict [("1", .pfloat ⟨1, 1⟩)]),
   ("is_alert", .pbool true),
   ("alert_level", .pstr "high"),
   ("timestamp", .pstr "T"),
   ("model_version", .pstr "1.0"),
   ("sensor_id", .pstr "SNR-007")]

/-- A world with a loaded classifier, no registered tokens and a healthy
prediction push. -/
def envA : Env :=
  ⟨some clsOne, defaultModelConfig, "T", .ok (), fun _ => .pnone, fun _ _ => .error "np"⟩

/-- The alert payload assembled for `predDrillDict`. -/
def adDrill : PyDict :=
  [("title", .pstr "🚨 Mining Alert - Sensor SNR-007"),
   ("body", .pstr "Possible illegal mining activity detected with 100.0% confidence"),
   ("data", .pdict
     [("sensor_id", .pstr "SNR-007"),
      ("prediction", .pstr "1"),
      ("class_label", .pstr "Possible illegal mining activity"),
      ("confidence", .pstr "1"),
      ("alert_level", .pstr "high"),
      ("timestamp", .pstr "T"),
      ("type", .pstr "mining_detection")])]

/-- A world identical to `envA` except that the prediction push fails. -/
def envPushFail : Env :=
  ⟨some clsOne, defaultModelConfig, "T", .error "boom", fun _ => .pnone, fun _ _ => .error "np"⟩

/-- A successful `innerPredict` result always has the nine result fields. -/
theorem innerPredict_ok_length (m : Classifier) (cfg : PyDict) (now : String)
    (sd : PyDict) (d : PyDict) (h : innerPredict m cfg now sd = .ok d) :
    d.length = 9 := by
  unfold innerPredict at h
  simp only [Bind.bind, Except.bind, Functor.map, Except.map, pure, Except.pure] at h
  repeat' split at h
  all_goals first
    | (rw [Except.ok.injEq] at h; subst h; rfl)
    | (exact absurd h (by simp))

/-- A successful `predict` result is either the nine-field success dict or
the five-field error-shaped dict. -/
theorem mlPredict_ok_length (model : Option Classifier) (cfg : PyDict)
    (now : String) (sd : PyDict) (pr : PyDict)
    (h : mlPredict model cfg now sd = .ok pr) :
    pr.length = 9 ∨ pr.length = 5 := by
  cases model with
  | none => exact absurd h (by simp [mlPredict])
  | some m =>
      have h' : (match innerPredict m cfg now sd with
          | Except.ok d => Except.ok d
          | Except.error e => Except.ok (errResult e now)) = Except.ok pr := h
      cases hin : innerPredict m cfg now sd with
      | ok d =>
          rw [hin] at h'
          rw [Except.ok.injEq] at h'
          subst h'
          exact Or.inl (innerPredict_ok_length m cfg now sd d hin)
      | error e =>
          rw [hin] at h'
          rw [Except.ok.injEq] at h'
          subst h'
          exact Or.inr rfl

/-- Claim C7 (amended): a failed persistence of the prediction does not
fail the pipeline — `predict_and_store` returns the structured error dict
`{"error": msg, "is_alert": false, "timestamp": now}` — but that dict is
not the in-memory prediction: the prediction is discarded and none of its
fields (in particular `prediction`) survive. -/
theorem c7_persistence_failure (env : Env) (sd : PyDict) (pr : PyDict) (e : String)
    (hok : mlPredict env.model env.config env.now sd = .ok pr)
    (hsid : pyTruthy (dictGetD sd "sensor_id" .pnone) = true)
    (hpush : env.pushOutcome = .error e) :
    predictAndStore env sd = psErr e env.now
    ∧ predictAndStore env sd ≠ pr
    ∧ assocFind "prediction" (psErr e env.now) = none := by
  have h1 : predictAndStore env sd = psErr e env.now := by
    simp [predictAndStore, hok, hsid, hpush]
  refine ⟨h1, ?_, rfl⟩
  rw [h1]
  intro hcontra
  have hlen := mlPredict_ok_length env.model env.config env.now sd pr hok
  rw [← hcontra] at hlen
  simp [psErr] at hlen

/-- Claim C7 witness: the amended theorem applied to a world whose
prediction push fails after an alert-grade prediction. -/
theorem c7_persistence_failure_witness :
    predictAndStore envPushFail sdDrill = psErr "boom" "T"
    ∧ predictAndStore envPushFail sdDrill ≠ predDrillDict := by
  have h := c7_persistence_failure envPushFail sdDrill predDrillDict "boom"
    (by rfl) (by rfl) (by rfl)
  exact ⟨h.1, h.2.1⟩

/-- Claim C7 counterexample: the push fails, an alert-grade in-memory
prediction exists (its `prediction` field is 1), yet the pipeline returns a
three-field error dict with no `prediction` field at all — the in-memory
prediction is not returned. -/
theorem c7_persistence_failure_counterexample :
    predictAndStore envPushFail sdDrill =
      [("error", .pstr "boom"), ("is_alert", .pbool false), ("timestamp", .pstr "T")]
    ∧ assocFind "prediction" (predictAndStore envPushFail sdDrill) = none
    ∧ mlPredict envPushFail.model envPushFail.config envPushFail.now sdDrill =
        .ok predDrillDict
    ∧ assocFind "prediction" predDrillDict = some (.pint 1) :=
  ⟨rfl, rfl, rfl, rfl⟩

/-- Claim C6: `alert_sent` is true iff a dispatch occurred (the
notification outcome is a `send_notification` result) and its reported
success count is positive; and when the prediction is an alert but zero
tokens resolve, `evaluate` returns without raising, carrying the
structured no-recipients outcome and `alert_sent = false`. -/
theorem c6_alert_sent_iff (env : Env) (sd : PyDict) :
    (∀ (an : Bool) (res : EvalResult), predictAndAlert env sd an = .ok res →
      (res.alert_sent = true ↔
        ∃ sr, res.notification = some (.sent sr) ∧ 0 < sr.success_count))
    ∧ (∀ ad : PyDict,
        pyTruthy (dictGetD (predictAndStore env sd) "is_alert" .pnone) = true →
        alertDataOf (predictAndStore env sd) (dictGetD sd "sensor_id" .pnone) = .ok ad →
        getFirebaseTokens env.rtdb (pyStr (dictGetD sd "sensor_id" .pnone)) = [] →
        predictAndAlert env sd true =
          .ok ⟨predictAndStore env sd,
               some (.noTokens "No FCM tokens found for sensor"), false⟩) := by
  constructor
  · intro an res h
    simp only [predictAndAlert] at h
    split at h
    · rcases had : alertDataOf (predictAndStore env sd) (dictGetD sd "sensor_id" .pnone)
        with e | ad
      · rw [had] at h
        exact absurd h (by simp [Bind.bind, Except.bind])
      · rw [had] at h
        simp only [Bind.bind, Except.bind, pure, Except.pure, Except.ok.injEq] at h
        subst h
        by_cases ht : (getFirebaseTokens env.rtdb
            (pyStr (dictGetD sd "sensor_id" .pnone))).isEmpty
        · simp [ht, alertSentOf, notifSuccessCount]
        · simp only [ht, Bool.false_eq_true, if_false, alertSentOf, notifSuccessCount]
          constructor
          · intro hs
            refine ⟨_, rfl, ?_⟩
            simpa using hs
          · rintro ⟨sr, hsr, hpos⟩
            rw [Option.some.injEq, NotifResult.sent.injEq] at hsr
            subst hsr
            simpa using hpos
    · simp only [pure, Except.pure, Except.ok.injEq] at h
      subst h
      simp [alertSentOf]
  · intro ad h1 had h3
    unfold predictAndAlert
    rw [if_pos ⟨h1, rfl⟩]
    simp [had, h3, Bind.bind, Except.bind, alertSentOf, notifSuccessCount, pure, Except.pure]

/-- Claim C6 witness: the end-to-end scenario — an alert-grade reading for
sensor SNR-007, `auto_notify = true`, zero registered tokens — returns
`alert_sent = false` with the structured no-recipients outcome while the
prediction itself carries `is_alert = true`. -/
theorem c6_alert_sent_iff_witness :
    predictAndAlert envA sdDrill true =
      .ok ⟨predDrillDict, some (.noTokens "No FCM tokens found for sensor"), false⟩
    ∧ dictGetD predDrillDict "is_alert" .pnone = .pbool true := by
  refine ⟨?_, rfl⟩
  exact (c6_alert_sent_iff envA sdDrill).2 adDrill (by rfl) (by rfl) (by rfl)

/-! ### Claims C5, C9, C10 — the notification dispatcher -/

/-- Characterization of the token filter. -/
theorem tokenOk_eq_some (v : PyVal) (s : String) :
    tokenOk v = some s ↔ v = .pstr s ∧ s.length > 10 := by
  cases v with
  | pstr t =>
      by_cases h0 : t = ""
      · subst h0
        simp [tokenOk, pyTruthy]
        intro h
        subst h
        simp
      · by_cases hl : t.length > 10
        · simp [tokenOk, pyTruthy, h0, hl]
          intro h
          subst h
          exact hl
        · simp [tokenOk, pyTruthy, h0, hl]
          intro h
          subst h
          omega
  | pnone => simp [tokenOk]
  | pbool b => cases b <;> simp [tokenOk, pyTruthy]
  | pint n => simp [tokenOk, pyTruthy]
  | pfloat q => simp [tokenOk, pyTruthy]
  | pdt d => simp [tokenOk, pyTruthy]
  | plist l => simp [tokenOk, pyTruthy]
  | pdict d => simp [tokenOk, pyTruthy]

/-- A valid token is a string entry of the input, longer than ten
characters. -/
theorem validTokens_mem (tokens : List PyVal) (s : String)
    (hs : s ∈ validTokens tokens) : s.length > 10 ∧ PyVal.pstr s ∈ tokens := by
  obtain ⟨t, ht, hf⟩ := List.mem_filterMap.mp hs
  obtain ⟨rfl, hl⟩ := (tokenOk_eq_some t s).mp hf
  exact ⟨hl, ht⟩

/-- A list of long-enough plain strings passes the token filter whole. -/
theorem validTokens_map_pstr (vts : List String) (h : ∀ s ∈ vts, s.length > 10) :
    validTokens (vts.map PyVal.pstr) = vts := by
  induction vts with
  | nil => rfl
  | cons s rest ih =>
      have hs := h s (by simp)
      have hok : tokenOk (.pstr s) = some s := (tokenOk_eq_some _ _).mpr ⟨rfl, hs⟩
      simp only [validTokens, List.map_cons, List.filterMap_cons, hok]
      exact congrArg (s :: ·) (ih fun t ht => h t (by simp [ht]))

/-- The response walk raises no `IndexError` when the batch holds at least
as many tokens as there are responses past the start index. -/
theorem walkResponses_err_none (resps : List SendResp) (bt : List String) :
    ∀ idx : Nat, idx + resps.length ≤ bt.length →
    (walkResponses resps bt idx).2 = none := by
  induction resps with
  | nil => intro idx _; rfl
  | cons r rest ih =>
      intro idx h
      have hlen : idx + rest.length + 1 ≤ bt.length := by
        simp only [List.length_cons] at h
        omega
      by_cases hs : r.success
      · simp only [walkResponses, hs, if_true]
        exact ih (idx + 1) (by omega)
      · have hidx : idx < bt.length := by omega
        simp only [walkResponses, hs, if_false]
        rw [List.get?_eq_get hidx]
        simp only []
        exact ih (idx + 1) (by omega)

/-- Every per-token diagnostic the walk emits is the mask of some token of
the batch. -/
theorem walkResponses_tok_mem (resps : List SendResp) (bt : List String)
    (pt err : String) :
    ∀ idx : Nat, FailedEntry.tok pt err ∈ (walkResponses resps bt idx).1 →
    ∃ t ∈ bt, pt = maskTok t := by
  induction resps with
  | nil => intro idx h; simp [walkResponses] at h
  | cons r rest ih =>
      intro idx h
      by_cases hs : r.success
      · rw [walkResponses, if_pos hs] at h
        exact ih (idx + 1) h
      · rw [walkResponses, if_neg hs] at h
        cases hg : bt.get? idx with
        | none => rw [hg] at h; simp at h
        | some t =>
            rw [hg] at h
            simp only [List.mem_cons, FailedEntry.tok.injEq] at h
            rcases h with ⟨rfl, -⟩ | h
            · exact ⟨t, List.get?_mem hg, rfl⟩
            · exact ih (idx + 1) h

/-- A successful provider call with a well-formed response adds its counts
and records the call; only diagnostics may extend further. -/
theorem processBatch_ok (provider : Nat → List String → Except String BatchResponse)
    (ad : PyDict) (bnum : Nat) (st : SendState) (bt : List String)
    (r : BatchResponse) (hm : buildMessage ad = .ok ())
    (hp : provider bnum bt = .ok r) (hw : r.responses.length ≤ bt.length) :
    ∃ es, processBatch provider ad bnum st bt =
      ⟨st.succ + r.success_count, st.fail + r.failure_count,
       st.entries ++ es, st.calls ++ [bt]⟩ := by
  by_cases hf : r.failure_count > 0
  · cases hwr : walkResponses r.responses bt 0 with
    | mk es err =>
        have hnone : err = none := by
          have h0 := walkResponses_err_none r.responses bt 0 (by omega)
          rw [hwr] at h0
          exact h0
        subst hnone
        refine ⟨es, ?_⟩
        simp [processBatch, hm, hp, hf, hwr]
  · refine ⟨[], ?_⟩
    simp [processBatch, hm, hp, hf]

/-- A throwing provider call counts the whole batch as failed, records one
batch-level diagnostic, and still records the call. -/
theorem processBatch_err (provider : Nat → List String → Except String BatchResponse)
    (ad : PyDict) (bnum : Nat) (st : SendState) (bt : List String) (e : String)
    (hm : buildMessage ad = .ok ()) (hp : provider bnum bt = .error e) :
    processBatch provider ad bnum st bt =
      ⟨st.succ, st.fail + bt.length,
       st.entries ++ [.batch (bnum + 1) e], st.calls ++ [bt]⟩ := by
  simp [processBatch, hm, hp]

/-- With a well-formed payload, every batch iteration records exactly one
provider call. -/
theorem processBatch_calls (provider : Nat → List String → Except String BatchResponse)
    (ad : PyDict) (bnum : Nat) (st : SendState) (bt : List String)
    (hm : buildMessage ad = .ok ()) :
    (processBatch provider ad bnum st bt).calls = st.calls ++ [bt] := by
  cases hp : provider bnum bt with
  | error e => simp [processBatch, hm, hp]
  | ok r =>
      by_cases hf : r.failure_count > 0
      · cases hwr : walkResponses r.responses bt 0 with
        | mk es err => cases err <;> simp [processBatch, hm, hp, hf, hwr]
      · simp [processBatch, hm, hp, hf]

/-- Every per-token diagnostic a batch iteration adds masks a token of that
batch. -/
theorem processBatch_tok_mem (provider : Nat → List String → Except String BatchResponse)
    (ad : PyDict) (bnum : Nat) (st : SendState) (bt : List String) (pt err : String)
    (h : FailedEntry.tok pt err ∈ (processBatch provider ad bnum st bt).entries) :
    FailedEntry.tok pt err ∈ st.entries ∨ ∃ t ∈ bt, pt = maskTok t := by
  cases hbm : buildMessage ad with
  | error e =>
      simp only [processBatch, hbm, List.mem_append, List.mem_singleton] at h
      rcases h with h | h
      · exact Or.inl h
      · simp at h
  | ok u =>
      cases u
      cases hp : provider bnum bt with
      | error e =>
          simp only [processBatch, hbm, hp, List.mem_append, List.mem_singleton] at h
          rcases h with h | h
          · exact Or.inl h
          · simp at h
      | ok r =>
          by_cases hf : r.failure_count > 0
          · cases hwr : walkResponses r.responses bt 0 with
            | mk es errw =>
                cases errw with
                | none =>
                    simp only [processBatch, hbm, hp, hf, if_true, hwr,
                      List.mem_append] at h
                    rcases h with h | h
                    · exact Or.inl h
                    · exact Or.inr (walkResponses_tok_mem r.responses bt pt err 0
                        (by rw [hwr]; exact h))
                | some e2 =>
                    simp only [processBatch, hbm, hp, hf, if_true, hwr,
                      List.mem_append, List.mem_singleton] at h
                    rcases h with (h | h) | h
                    · exact Or.inl h
                    · exact Or.inr (walkResponses_tok_mem r.responses bt pt err 0
                        (by rw [hwr]; exact h))
                    · simp at h
          · simp only [processBatch, hbm, hp, hf, if_false] at h
            exact Or.inl h

/-- The batch loop on an empty token list is the identity. -/
theorem sendLoop_nil (provider : Nat → List String → Except String BatchResponse)
    (ad : PyDict) (bnum : Nat) (st : SendState) :
    sendLoop provider ad bnum [] st = st := by
  rw [sendLoop]

/-- One unfolding step of the batch loop. -/
theorem sendLoop_step (provider : Nat → List String → Except String BatchResponse)
    (ad : PyDict) (bnum : Nat) (toks : List String) (st : SendState)
    (hne : toks ≠ []) :
    sendLoop provider ad bnum toks st =
      sendLoop provider ad (bnum + 1) (toks.drop 500)
        (processBatch provider ad bnum st (toks.take 500)) := by
  cases toks with
  | nil => exact absurd rfl hne
  | cons t rest => rw [sendLoop]

/-- With a well-formed payload, the concatenation of the provider calls of
the batch loop is exactly the token list it was given. -/
theorem sendLoop_calls_join (provider : Nat → List String → Except String BatchResponse)
    (ad : PyDict) (hm : buildMessage ad = .ok ()) :
    ∀ (n : Nat) (toks : List String), toks.length ≤ n → ∀ (bnum : Nat) (st : SendState),
    (sendLoop provider ad bnum toks st).calls.flatten = st.calls.flatten ++ toks := by
  intro n
  induction n with
  | zero =>
      intro toks hlen bnum st
      have h0 : toks = [] := List.eq_nil_of_length_eq_zero (Nat.le_zero.mp hlen)
      subst h0
      simp [sendLoop_nil]
  | succ n ih =>
      intro toks hlen bnum st
      cases htk : toks with
      | nil =>
          subst htk
          simp [sendLoop_nil]
      | cons t rest =>
          rw [← htk]
          have hne : toks ≠ [] := by rw [htk]; exact List.cons_ne_nil t rest
          rw [sendLoop_step provider ad bnum toks st hne]
          have hdrop : (toks.drop 500).length ≤ n := by
            rw [List.length_drop]
            rw [htk] at hlen ⊢
            simp only [List.length_cons] at hlen ⊢
            omega
          rw [ih (toks.drop 500) hdrop (bnum + 1) _]
          rw [processBatch_calls provider ad bnum st (toks.take 500) hm]
          rw [List.flatten_append]
          simp [List.append_assoc, List.take_append_drop]

/-- Every per-token diagnostic of the batch loop masks one of the tokens it
was given. -/
theorem sendLoop_tok_mem (provider : Nat → List String → Except String BatchResponse)
    (ad : PyDict) (pt err : String) :
    ∀ (n : Nat) (toks : List String), toks.length ≤ n → ∀ (bnum : Nat) (st : SendState),
    FailedEntry.tok pt err ∈ (sendLoop provider ad bnum toks st).entries →
    FailedEntry.tok pt err ∈ st.entries ∨ ∃ t ∈ toks, pt = maskTok t := by
  intro n
  induction n with
  | zero =>
      intro toks hlen bnum st h
      have h0 : toks = [] := List.eq_nil_of_length_eq_zero (Nat.le_zero.mp hlen)
      subst h0
      rw [sendLoop_nil] at h
      exact Or.inl h
  | succ n ih =>
      intro toks hlen bnum st h
      cases htk : toks with
      | nil =>
          subst htk
          rw [sendLoop_nil] at h
          exact Or.inl h
      | cons t rest =>
          rw [← htk]
          have hne : toks ≠ [] := by rw [htk]; exact List.cons_ne_nil t rest
          rw [sendLoop_step provider ad bnum toks st hne] at h
          have hdrop : (toks.drop 500).length ≤ n := by
            rw [List.length_drop]
            rw [htk] at hlen ⊢
            simp only [List.length_cons] at hlen ⊢
            omega
          rcases ih (toks.drop 500) hdrop (bnum + 1) _ h with h' | ⟨u, hu, hmask⟩
          · rcases processBatch_tok_mem provider ad bnum st (toks.take 500) pt err h'
              with h'' | ⟨u, hu, hmask⟩
            · exact Or.inl h''
            · exact Or.inr ⟨u, List.mem_of_mem_take hu, hmask⟩
          · exact Or.inr ⟨u, List.mem_of_mem_drop hu, hmask⟩

/-- Claim C10: with a non-empty token list and a well-formed payload,
dispatch attempts delivery exactly for the entries that are truthy strings
longer than 10 characters — the provider calls cover precisely the valid
tokens — and when none qualifies, no provider call happens and the result
is the `no valid tokens provided` error with zero counts. -/
theorem c10_valid_token_filter (provider : Nat → List String → Except String BatchResponse)
    (tokens : List PyVal) (ad : PyDict)
    (hne : tokens ≠ []) (hm : buildMessage ad = .ok ()) :
    (∀ s ∈ validTokens tokens, s.length > 10 ∧ PyVal.pstr s ∈ tokens)
    ∧ (sendNotification provider tokens ad).2.flatten = validTokens tokens
    ∧ (validTokens tokens = [] →
        (sendNotification provider tokens ad).1 =
          ⟨0, 0, some "no valid tokens provided", none, none, none⟩
        ∧ (sendNotification provider tokens ad).2 = []) := by
  have hne' : tokens.isEmpty = false := by
    cases tokens with
    | nil => exact absurd rfl hne
    | cons a l => rfl
  refine ⟨fun s hs => validTokens_mem tokens s hs, ?_, ?_⟩
  · cases hvt : validTokens tokens with
    | nil => simp [sendNotification, hne', hvt]
    | cons v vs =>
        have hjoin := sendLoop_calls_join provider ad hm (v :: vs).length
          (v :: vs) (le_refl _) 0 ⟨0, 0, [], []⟩
        simp only [List.flatten_nil, List.nil_append] at hjoin
        simp [sendNotification, hne', hvt, hjoin]
  · intro hv
    constructor <;> simp [sendNotification, hne', hv]

/-- Claim C10 witness: a non-empty token list with no valid entry — a short
string and an integer — triggers no provider call and yields the
structured error result. -/
theorem c10_valid_token_filter_witness :
    validTokens [.pstr "short", .pint 5] = []
    ∧ (sendNotification (fun _ _ => .error "np") [.pstr "short", .pint 5] []).1 =
        ⟨0, 0, some "no valid tokens provided", none, none, none⟩
    ∧ (sendNotification (fun _ _ => .error "np") [.pstr "short", .pint 5] []).2 = [] := by
  refine ⟨rfl, ?_⟩
  exact (c10_valid_token_filter (fun _ _ => .error "np") [.pstr "short", .pint 5] []
    (by simp) rfl).2.2 rfl

/-- Claim C5: on 1200 valid tokens, dispatch issues exactly three provider
batches of sizes 500, 500 and 200; counts aggregate additively across
batches; a provider exception on the second batch counts all 500 of its
tokens as failed while batches one and three still run and contribute
their reported counts; and dispatch returns a result rather than raising
(the embedding is a total function). -/
theorem c5_batching (provider : Nat → List String → Except String BatchResponse)
    (ad : PyDict) (vts : List String) (r1 r3 : BatchResponse) (e : String)
    (hlen : vts.length = 1200)
    (hval : ∀ s ∈ vts, s.length > 10)
    (hm : buildMessage ad = .ok ())
    (hp1 : provider 0 (vts.take 500) = .ok r1)
    (hw1 : r1.responses.length ≤ 500)
    (hp2 : provider 1 ((vts.drop 500).take 500) = .error e)
    (hp3 : provider 2 (vts.drop 1000) = .ok r3)
    (hw3 : r3.responses.length ≤ 200) :
    (sendNotification provider (vts.map PyVal.pstr) ad).2 =
      [vts.take 500, (vts.drop 500).take 500, vts.drop 1000]
    ∧ ((sendNotification provider (vts.map PyVal.pstr) ad).2).map List.length =
        [500, 500, 200]
    ∧ (sendNotification provider (vts.map PyVal.pstr) ad).1.success_count =
        r1.success_count + r3.success_count
    ∧ (sendNotification provider (vts.map PyVal.pstr) ad).1.failure_count =
        r1.failure_count + 500 + r3.failure_count
    ∧ (sendNotification provider (vts.map PyVal.pstr) ad).1.total_tokens = some 1200
    ∧ (sendNotification provider (vts.map PyVal.pstr) ad).1.error = none := by
  have hv : validTokens (vts.map PyVal.pstr) = vts := validTokens_map_pstr vts hval
  have hne1 : (vts.map PyVal.pstr).isEmpty = false := by
    cases vts with
    | nil => simp at hlen
    | cons a l => rfl
  have hvne : vts.isEmpty = false := by
    cases vts with
    | nil => simp at hlen
    | cons a l => rfl
  have hlen1 : (vts.take 500).length = 500 := by rw [List.length_take]; omega
  have hlen2 : ((vts.drop 500).take 500).length = 500 := by
    rw [List.length_take, List.length_drop]; omega
  have hlen3 : (vts.drop 1000).length = 200 := by rw [List.length_drop]; omega
  have hne0 : vts ≠ [] := by
    intro h0; rw [h0] at hlen; simp at hlen
  have hne05 : vts.drop 500 ≠ [] := by
    intro h0
    have h1 := congrArg List.length h0
    rw [List.length_drop, hlen] at h1
    simp at h1
  have hne10 : vts.drop 1000 ≠ [] := by
    intro h0
    have h1 := congrArg List.length h0
    rw [List.length_drop, hlen] at h1
    simp at h1
  have hdd : (vts.drop 500).drop 500 = vts.drop 1000 := by
    rw [List.drop_drop]
  have htake3 : (vts.drop 1000).take 500 = vts.drop 1000 :=
    List.take_of_length_le (by rw [hlen3]; omega)
  have hdrop15 : (vts.drop 1000).drop 500 = [] :=
    List.drop_eq_nil_of_le (by rw [hlen3]; omega)
  have hsl : sendLoop provider ad 0 vts ⟨0, 0, [], []⟩ =
      processBatch provider ad 2
        (processBatch provider ad 1
          (processBatch provider ad 0 ⟨0, 0, [], []⟩ (vts.take 500))
          ((vts.drop 500).take 500))
        (vts.drop 1000) := by
    rw [sendLoop_step provider ad 0 vts _ hne0,
        sendLoop_step provider ad 1 (vts.drop 500) _ hne05, hdd,
        sendLoop_step provider ad 2 (vts.drop 1000) _ hne10,
        htake3, hdrop15, sendLoop_nil]
  obtain ⟨es1, hst1⟩ := processBatch_ok provider ad 0 ⟨0, 0, [], []⟩ (vts.take 500)
    r1 hm hp1 (by rw [hlen1]; exact hw1)
  simp only [Nat.zero_add, List.nil_append] at hst1
  have hst2 := processBatch_err provider ad 1
    ⟨r1.success_count, r1.failure_count, es1, [vts.take 500]⟩
    ((vts.drop 500).take 500) e hm hp2
  rw [hlen2] at hst2
  obtain ⟨es3, hst3⟩ := processBatch_ok provider ad 2
    ⟨r1.success_count, r1.failure_count + 500,
     es1 ++ [FailedEntry.batch 2 e], [vts.take 500, (vts.drop 500).take 500]⟩
    (vts.drop 1000) r3 hm hp3 (by rw [hlen3]; exact hw3)
  have hfin : sendLoop provider ad 0 vts ⟨0, 0, [], []⟩ =
      ⟨r1.success_count + r3.success_count,
       r1.failure_count + 500 + r3.failure_count,
       (es1 ++ [FailedEntry.batch 2 e]) ++ es3,
       [vts.take 500, (vts.drop 500).take 500, vts.drop 1000]⟩ := by
    rw [hsl, hst1]
    simp only [List.singleton_append] at hst2
    norm_num at hst2
    rw [hst2, hst3]
    simp
  refine ⟨?_, ?_, ?_, ?_, ?_, ?_⟩ <;>
    simp [sendNotification, hne1, hv, hvne, hfin, hlen1, hlen2, hlen3, hlen]

/-- Claim C9 (amended): the failed-token diagnostics hold at most five
entries, and each per-token diagnostic records `token[:20] + "..."` for
some valid (length > 10) token of the dispatch — a proper truncation only
when the token is longer than 20 characters; for valid tokens of length
11–20 the recorded value embeds the full token. -/
theorem c9_failed_token_diagnostics (provider : Nat → List String → Except String BatchResponse)
    (tokens : List PyVal) (ad : PyDict) :
    (∀ fl, (sendNotification provider tokens ad).1.failed_tokens = some fl →
        fl.length ≤ 5)
    ∧ (∀ fl pt err, (sendNotification provider tokens ad).1.failed_tokens = some fl →
        FailedEntry.tok pt err ∈ fl →
        ∃ s ∈ validTokens tokens, pt = maskTok s ∧ s.length > 10) := by
  by_cases h0 : tokens.isEmpty
  · constructor
    · intro fl hfl
      simp [sendNotification, h0] at hfl
    · intro fl pt err hfl
      simp [sendNotification, h0] at hfl
  · have h0' : tokens.isEmpty = false := by simpa using h0
    by_cases h1 : (validTokens tokens).isEmpty
    · have h1' : (validTokens tokens).isEmpty = true := h1
      constructor
      · intro fl hfl
        simp [sendNotification, h0', h1'] at hfl
      · intro fl pt err hfl
        simp [sendNotification, h0', h1'] at hfl
    · have h1' : (validTokens tokens).isEmpty = false := by simpa using h1
      have hproj : (sendNotification provider tokens ad).1.failed_tokens =
          (if (sendLoop provider ad 0 (validTokens tokens)
                ⟨0, 0, [], []⟩).entries.isEmpty then none
           else some ((sendLoop provider ad 0 (validTokens tokens)
                ⟨0, 0, [], []⟩).entries.take 5)) := by
        simp [sendNotification, h0', h1']
      constructor
      · intro fl hfl
        rw [hproj] at hfl
        split at hfl
        · simp at hfl
        · rw [Option.some.injEq] at hfl
          subst hfl
          rw [List.length_take]
          omega
      · intro fl pt err hfl hmem
        rw [hproj] at hfl
        split at hfl
        · simp at hfl
        · rw [Option.some.injEq] at hfl
          subst hfl
          have hment := List.mem_of_mem_take hmem
          rcases sendLoop_tok_mem provider ad pt err (validTokens tokens).length
              (validTokens tokens) (le_refl _) 0 ⟨0, 0, [], []⟩ hment with h' | ⟨s, hs, hmask⟩
          · simp at h'
          · exact ⟨s, hs, hmask, (validTokens_mem tokens s hs).1⟩

/-- A provider whose single batch call reports one per-token failure. -/
def oneFailProvider : Nat → List String → Except String BatchResponse :=
  fun _ _ => .ok ⟨0, 1, [⟨false, some "bad"⟩]⟩

/-- Claim C9 witness: the amended theorem applied to a dispatch whose only
(26-character) token fails: the single diagnostic entry records the
20-character prefix plus `...`. -/
theorem c9_failed_token_diagnostics_witness :
    (sendNotification oneFailProvider [.pstr "abcdefghijklmnopqrstuvwxyz"] []).1.failed_tokens =
      some [FailedEntry.tok "abcdefghijklmnopqrst..." "bad"]
    ∧ [FailedEntry.tok "abcdefghijklmnopqrst..." "bad"].length ≤ 5
    ∧ ∃ s ∈ validTokens [.pstr "abcdefghijklmnopqrstuvwxyz"],
        "abcdefghijklmnopqrst..." = maskTok s ∧ s.length > 10 := by
  have hloop : sendLoop oneFailProvider [] 0 ["abcdefghijklmnopqrstuvwxyz"] ⟨0, 0, [], []⟩ =
      processBatch oneFailProvider [] 0 ⟨0, 0, [], []⟩ ["abcdefghijklmnopqrstuvwxyz"] := by
    rw [sendLoop_step oneFailProvider [] 0 _ _ (by simp)]
    have h2 : List.drop 500 ["abcdefghijklmnopqrstuvwxyz"] = ([] : List String) := rfl
    have h3 : List.take 500 ["abcdefghijklmnopqrstuvwxyz"] =
        ["abcdefghijklmnopqrstuvwxyz"] := rfl
    rw [h2, h3, sendLoop_nil]
  have hfl : (sendNotification oneFailProvider
      [.pstr "abcdefghijklmnopqrstuvwxyz"] []).1.failed_tokens =
      some [FailedEntry.tok "abcdefghijklmnopqrst..." "bad"] := by
    simp only [sendNotification]
    rw [show validTokens [.pstr "abcdefghijklmnopqrstuvwxyz"] =
        ["abcdefghijklmnopqrstuvwxyz"] from rfl]
    simp only [List.isEmpty_cons]
    rw [if_neg (by simp), if_neg (by simp), hloop]
    rfl
  refine ⟨hfl, ?_, ?_⟩
  · exact (c9_failed_token_diagnostics oneFailProvider
      [.pstr "abcdefghijklmnopqrstuvwxyz"] []).1 _ hfl
  · exact (c9_failed_token_diagnostics oneFailProvider
      [.pstr "abcdefghijklmnopqrstuvwxyz"] []).2 _ _ "bad" hfl (by simp)

/-- Claim C9 counterexample: a valid token of length 11 that fails delivery
is recorded as `token[:20] + "..."`, whose prefix is the entire token —
the diagnostic does carry the full token value for valid tokens of length
at most 20. -/
theorem c9_failed_token_diagnostics_counterexample :
    (sendNotification oneFailProvider [.pstr "abcdefghijk"] []).1.failed_tokens =
      some [FailedEntry.tok "abcdefghijk..." "bad"]
    ∧ ("abcdefghijk" : String).length = 11
    ∧ List.isPrefixOf "abcdefghijk".data "abcdefghijk...".data = true := by
  have hloop : sendLoop oneFailProvider [] 0 ["abcdefghijk"] ⟨0, 0, [], []⟩ =
      processBatch oneFailProvider [] 0 ⟨0, 0, [], []⟩ ["abcdefghijk"] := by
    rw [sendLoop_step oneFailProvider [] 0 _ _ (by simp)]
    have h2 : List.drop 500 ["abcdefghijk"] = ([] : List String) := rfl
    have h3 : List.take 500 ["abcdefghijk"] = ["abcdefghijk"] := rfl
    rw [h2, h3, sendLoop_nil]
  refine ⟨?_, rfl, rfl⟩
  simp only [sendNotification]
  rw [show validTokens [.pstr "abcdefghijk"] = ["abcdefghijk"] from rfl]
  simp only [List.isEmpty_cons]
  rw [if_neg (by simp), if_neg (by simp), hloop]
  rfl

/-- A list of 1200 distinct valid tokens. -/
def bigTokenList : List String :=
  (List.range 1200).map (fun i => "tok-tok-tok-" ++ toString i)

/-- Claim C5 witness: the batching theorem applied to 1200 concrete tokens
with a provider that reports 7 successes and 3 failures per healthy batch
and throws on the second batch. -/
theorem c5_batching_witness :
    ((sendNotification
        (fun b _ => if b = 1 then .error "boom" else .ok ⟨7, 3, []⟩)
        (bigTokenList.map PyVal.pstr) []).2).map List.length = [500, 500, 200]
    ∧ (sendNotification
        (fun b _ => if b = 1 then .error "boom" else .ok ⟨7, 3, []⟩)
        (bigTokenList.map PyVal.pstr) []).1.success_count = 7 + 7
    ∧ (sendNotification
        (fun b _ => if b = 1 then .error "boom" else .ok ⟨7, 3, []⟩)
        (bigTokenList.map PyVal.pstr) []).1.failure_count = 3 + 500 + 3
    ∧ (sendNotification
        (fun b _ => if b = 1 then .error "boom" else .ok ⟨7, 3, []⟩)
        (bigTokenList.map PyVal.pstr) []).1.total_tokens = some 1200 := by
  have hlen : bigTokenList.length = 1200 := by simp [bigTokenList]
  have hval : ∀ s ∈ bigTokenList, s.length > 10 := by
    intro s hs
    simp only [bigTokenList, List.mem_map, List.mem_range] at hs
    obtain ⟨i, -, rfl⟩ := hs
    rw [String.length_append]
    have h12 : ("tok-tok-tok-" : String).length = 12 := rfl
    omega
  have h := c5_batching
    (fun b _ => if b = 1 then .error "boom" else .ok ⟨7, 3, []⟩) []
    bigTokenList ⟨7, 3, []⟩ ⟨7, 3, []⟩ "boom" hlen hval rfl rfl
    (by simp) rfl rfl (by simp)
  exact ⟨h.2.1, h.2.2.1, h.2.2.2.1, h.2.2.2.2.1⟩

/-! ### Claim C8 — merged, deduplicated token resolution -/

/-- Hashability and scalarity coincide on `PyVal`. -/
theorem pyHashable_eq_pyScalar (v : PyVal) : pyHashable v = pyScalar v := by
  cases v <;> rfl

/-- Python `==` is reflexive on non-container values. -/
theorem pyEq_refl_scalar (v : PyVal) (h : pyScalar v = true) : pyEq v v = true := by
  cases v with
  | pnone => rfl
  | pbool b => cases b <;> rfl
  | pint n => simp [pyEq, numVal, pfOfInt, pfEq]
  | pfloat q => simp [pyEq, numVal, pfEq]
  | pstr s => simp [pyEq]
  | pdt d =>
      cases hoff : d.off with
      | none => simp [pyEq, hoff]
      | some x => simp [pyEq, hoff]
  | plist l => simp [pyScalar] at h
  | pdict d => simp [pyScalar] at h

/-- Elements surviving the seen-set dedup of `get_firebase_tokens` are
non-empty members of the input. -/
theorem dedupTokens_go_mem (l : List String) :
    ∀ (seen : List String) (x : String), x ∈ dedupTokensGo seen l →
    x ∈ l ∧ x ≠ "" := by
  induction l with
  | nil => intro seen x h; simp [dedupTokensGo] at h
  | cons t rest ih =>
      intro seen x h
      rw [dedupTokensGo] at h
      split at h
      · rcases List.mem_cons.mp h with rfl | h'
        · rename_i hcond
          exact ⟨by simp, hcond.1⟩
        · have := ih (t :: seen) x h'
          exact ⟨by simp [this.1], this.2⟩
      · have := ih seen x h
        exact ⟨by simp [this.1], this.2⟩

/-- The `set`-based dedup only keeps input elements. -/
theorem pySetDedup_go_subset (l : List PyVal) :
    ∀ (seen : List PyVal) (x : PyVal), x ∈ pySetDedupGo seen l → x ∈ l := by
  induction l with
  | nil => intro seen x h; simp [pySetDedupGo] at h
  | cons t rest ih =>
      intro seen x h
      rw [pySetDedupGo] at h
      split at h
      · exact List.mem_cons_of_mem t (ih seen x h)
      · rcases List.mem_cons.mp h with rfl | h'
        · exact List.mem_cons_self x rest
        · exact List.mem_cons_of_mem t (ih (t :: seen) x h')

/-- Kept elements were not `==`-equal to anything already seen. -/
theorem pySetDedup_go_notin_seen (l : List PyVal) :
    ∀ (seen : List PyVal) (x : PyVal), x ∈ pySetDedupGo seen l →
    pyMem x seen = false := by
  induction l with
  | nil => intro seen x h; simp [pySetDedupGo] at h
  | cons t rest ih =>
      intro seen x h
      rw [pySetDedupGo] at h
      split at h
      · exact ih seen x h
      · rcases List.mem_cons.mp h with rfl | h'
        · rename_i hm
          simpa using hm
        · have hts := ih (t :: seen) x h'
          simp only [pyMem, List.any_cons, Bool.or_eq_false_iff] at hts
          exact hts.2

/-- No later kept element is `==`-equal to an earlier one. -/
theorem pySetDedup_go_pairwise (l : List PyVal) :
    ∀ seen : List PyVal,
    List.Pairwise (fun a b => pyEq b a = false) (pySetDedupGo seen l) := by
  induction l with
  | nil => intro seen; simp [pySetDedupGo]
  | cons t rest ih =>
      intro seen
      rw [pySetDedupGo]
      split
      · exact ih seen
      · refine List.Pairwise.cons ?_ (ih (t :: seen))
        intro b hb
        have hts := pySetDedup_go_notin_seen rest (t :: seen) b hb
        simp only [pyMem, List.any_cons, Bool.or_eq_false_iff] at hts
        exact hts.1

/-- Every scalar input element is `==`-represented among the seen set or
the kept output. -/
theorem pySetDedup_go_covers (l : List PyVal) :
    ∀ (seen : List PyVal) (x : PyVal), x ∈ l → pyScalar x = true →
    (∃ u ∈ seen, pyEq x u = true) ∨ (∃ u ∈ pySetDedupGo seen l, pyEq x u = true) := by
  induction l with
  | nil => intro seen x h; simp at h
  | cons t rest ih =>
      intro seen x hx hscal
      rw [pySetDedupGo]
      rcases List.mem_cons.mp hx with rfl | hx'
      · by_cases hm : pyMem x seen
        · rw [if_pos hm]
          left
          simpa [pyMem, List.any_eq_true] using hm
        · rw [if_neg hm]
          right
          exact ⟨x, List.mem_cons_self x _, pyEq_refl_scalar x hscal⟩
      · by_cases hm : pyMem t seen
        · rw [if_pos hm]
          exact ih seen x hx' hscal
        · rw [if_neg hm]
          rcases ih (t :: seen) x hx' hscal with ⟨u, hu, he⟩ | ⟨u, hu, he⟩
          · rcases List.mem_cons.mp hu with rfl | hu'
            · exact Or.inr ⟨u, List.mem_cons_self u _, he⟩
            · exact Or.inl ⟨u, hu', he⟩
          · exact Or.inr ⟨u, List.mem_cons_of_mem t hu, he⟩

/-- The `elif` chain of a device document yields only truthy values. -/
theorem extractDeviceTokenAlt_mem (data : PyDict) (x : PyVal)
    (h : x ∈ extractDeviceTokenAlt data) : pyTruthy x = true := by
  unfold extractDeviceTokenAlt at h
  split at h
  · split at h
    · rcases List.mem_singleton.mp h with rfl
      assumption
    · split at h
      · split at h
        · rcases List.mem_singleton.mp h with rfl
          assumption
        · simp at h
      · simp at h
  · split at h
    · split at h
      · rcases List.mem_singleton.mp h with rfl
        assumption
      · simp at h
    · simp at h

/-- A device document contributes only truthy token values. -/
theorem extractDeviceToken_mem (data : PyDict) (x : PyVal)
    (h : x ∈ extractDeviceToken data) : pyTruthy x = true := by
  unfold extractDeviceToken at h
  split at h
  · split at h
    · rcases List.mem_singleton.mp h with rfl
      assumption
    · exact extractDeviceTokenAlt_mem data x h
  · exact extractDeviceTokenAlt_mem data x h

/-- Firestore tokens are truthy scalars. -/
theorem getFirestoreTokens_mem (devices : List PyDict) (x : PyVal)
    (h : x ∈ getFirestoreTokens devices) :
    pyTruthy x = true ∧ pyScalar x = true := by
  simp only [getFirestoreTokens] at h
  split at h
  · simp at h
  · rename_i hguard
    have hx : x ∈ devices.flatMap extractDeviceToken := pySetDedup_go_subset _ _ _ h
    have htru : pyTruthy x = true := by
      obtain ⟨data, -, hxd⟩ := List.mem_flatMap.mp hx
      exact extractDeviceToken_mem data x hxd
    have hscal : pyScalar x = true := by
      have hg : ((devices.flatMap extractDeviceToken).any fun t => !pyHashable t) = false := by
        simpa using hguard
      rw [List.any_eq_false] at hg
      have hx2 := hg x hx
      rw [← pyHashable_eq_pyScalar]
      simpa using hx2
    exact ⟨htru, hscal⟩

/-- Realtime-database tokens are non-empty strings. -/
theorem getFirebaseTokens_mem (rtdb : String → PyVal) (sid : String) (x : String)
    (h : x ∈ getFirebaseTokens rtdb sid) : x ≠ "" :=
  (dedupTokens_go_mem _ [] x h).2

/-- Claim C8: resolution through `get_all_tokens` merges the tokens of all
legacy realtime-database paths with the scan of the flat `devices`
collection, discards empty and placeholder values, and returns a sequence
with no duplicate token values (no element is Python-`==` to an earlier
one, and the list is duplicate-free), while `==`-representing every merged
token. -/
theorem c8_token_merge_dedup (rtdb : String → PyVal) (devices : List PyDict)
    (sid : String) (hsid : sid ≠ "") :
    List.Pairwise (fun a b => pyEq b a = false) (getAllTokens rtdb devices sid)
    ∧ (getAllTokens rtdb devices sid).Nodup
    ∧ (∀ x ∈ getAllTokens rtdb devices sid,
        x ∈ (getFirebaseTokens rtdb sid).map PyVal.pstr ++ getFirestoreTokens devices)
    ∧ (∀ x ∈ (getFirebaseTokens rtdb sid).map PyVal.pstr ++ getFirestoreTokens devices,
        ∃ u ∈ getAllTokens rtdb devices sid, pyEq x u = true)
    ∧ (∀ x ∈ getAllTokens rtdb devices sid, pyTruthy x = true) := by
  have hunf : getAllTokens rtdb devices sid =
      pySetDedupGo []
        ((getFirebaseTokens rtdb sid).map PyVal.pstr ++ getFirestoreTokens devices) := by
    simp [getAllTokens, hsid, pySetDedup]
  have hmerged : ∀ x ∈ (getFirebaseTokens rtdb sid).map PyVal.pstr ++
      getFirestoreTokens devices, pyTruthy x = true ∧ pyScalar x = true := by
    intro x hx
    rcases List.mem_append.mp hx with hx' | hx'
    · obtain ⟨s, hs, rfl⟩ := List.mem_map.mp hx'
      have hne := getFirebaseTokens_mem rtdb sid s hs
      refine ⟨?_, rfl⟩
      simpa [pyTruthy] using hne
    · exact getFirestoreTokens_mem devices x hx'
  have hpair : List.Pairwise (fun a b => pyEq b a = false)
      (getAllTokens rtdb devices sid) := by
    rw [hunf]
    exact pySetDedup_go_pairwise _ []
  have hsub : ∀ x ∈ getAllTokens rtdb devices sid,
      x ∈ (getFirebaseTokens rtdb sid).map PyVal.pstr ++ getFirestoreTokens devices := by
    intro x hx
    rw [hunf] at hx
    exact pySetDedup_go_subset _ [] x hx
  refine ⟨hpair, ?_, hsub, ?_, ?_⟩
  · refine List.Pairwise.imp_of_mem ?_ hpair
    intro a b ha hb hfalse
    intro heq
    subst heq
    have hscal := (hmerged a (hsub a ha)).2
    rw [pyEq_refl_scalar a hscal] at hfalse
    simp at hfalse
  · intro x hx
    rcases pySetDedup_go_covers _ [] x hx (hmerged x hx).2 with ⟨u, hu, -⟩ | ⟨u, hu, he⟩
    · simp at hu
    · exact ⟨u, by rw [hunf]; exact hu, he⟩
  · intro x hx
    exact (hmerged x (hsub x hx)).1

/-- The realtime database of the C8 witness: the same token `tokA` is
reachable through two legacy paths. -/
def rtdbW : String → PyVal := fun p =>
  if p = "EcoWatch/tokens/S1" then .plist [.pstr "tokA", .pstr "tokB"]
  else if p = "tokens/S1" then .pstr "tokA"
  else .pnone

/-- The Firestore device documents of the C8 witness. -/
def devicesW : List PyDict :=
  [[("fcmToken", .pstr "tokB")], [("token", .pstr "tokC")]]

/-- Claim C8 witness: with `tokA` reachable via two legacy paths and
`tokB` in both stores, resolution returns each token exactly once. -/
theorem c8_token_merge_dedup_witness :
    getAllTokens rtdbW devicesW "S1" = [.pstr "tokA", .pstr "tokB", .pstr "tokC"]
    ∧ List.count "tokA"
        ((tokenPaths "S1").flatMap (fun p => collectFromNode (rtdbW p))) = 2
    ∧ List.Pairwise (fun a b => pyEq b a = false) (getAllTokens rtdbW devicesW "S1") := by
  refine ⟨rfl, rfl, ?_⟩
  exact (c8_token_merge_dedup rtdbW devicesW "S1" (by decide)).1

end EcoWatch
